import Mathlib

/-!
# HHBC instruction format (`hphp/runtime/vm/hhbc.h`)

A shallow embedding of the bytecode header of the HipHop virtual machine: the
variable-size immediate codec, the `OPCODES` descriptor table with the tables
generated from it, the opcode classification predicates, the location and
member codes with the member instruction attributes, the immediate vectors
with the switch-table iteration, the fixed-width codec and the sub-operator
name lists, followed by the properties established about them.

Conventions of the embedding.

* A bytecode stream is a `List Byte` together with a cursor (an index into the
  list); a C++ function that advances a pointer returns the new cursor.  A read
  outside the buffer (undefined behaviour in C++) makes the function return
  `none`.
* Multi-byte loads use the little-endian layout of the host the VM targets
  (x86-64).
* Machine integers are natural numbers or integers with the wrap-around written
  out: `toUInt32` and `toInt32` are the C++ conversions to `uint32_t` and
  `int32_t`.
-/

namespace HPHP

/-! ## Bytes and fixed-width integers -/

/-- One `unsigned char` of a bytecode stream. -/
abbrev Byte := Fin 256

/-- The C++ conversion `(uint32_t)x` of a signed integer: reduction modulo `2^32`. -/
def toUInt32 (x : Int) : Nat :=
  (x % 4294967296).toNat

/-- The C++ conversion `(int32_t)x` of an unsigned value: the two's complement reading of its
low 32 bits. -/
def toInt32 (x : Nat) : Int :=
  if x % 4294967296 < 2147483648 then ((x % 4294967296 : Nat) : Int)
  else ((x % 4294967296 : Nat) : Int) - 4294967296

/-- The load `*(const unsigned int*)p`: four bytes at cursor `p`, little-endian. -/
def loadU32 (buf : List Byte) (p : Nat) : Option Nat :=
  match buf[p]?, buf[p + 1]?, buf[p + 2]?, buf[p + 3]? with
  | some b0, some b1, some b2, some b3 =>
      some (b0.val + 256 * b1.val + 65536 * b2.val + 16777216 * b3.val)
  | _, _, _, _ => none

/-- The store of a 32-bit word: its four bytes, little-endian. -/
def storeU32 (w : Nat) : List Byte :=
  [Fin.ofNat (w % 256), Fin.ofNat (w / 256 % 256), Fin.ofNat (w / 65536 % 256),
   Fin.ofNat (w / 16777216 % 256)]

/-! ## Variable-size immediates -/

/-- The function `decodeVariableSizeImm(const unsigned char** immPtr)`: reads the byte at the
cursor; when its low bit is set, re-reads four bytes as an `unsigned int`, advances the cursor
by 4 and returns `(int32_t)(large >> 1)`; otherwise advances the cursor by 1 and returns
`(int32_t)(small >> 1)`.
The result is the decoded value paired with the advanced cursor. -/
def decodeVariableSizeImm (buf : List Byte) (immPtr : Nat) : Option (Int × Nat) :=
  match buf[immPtr]? with
  | none => none
  | some small =>
      if small.val &&& 0x1 ≠ 0 then
        match loadU32 buf immPtr with
        | none => none
        | some large => some (toInt32 (large >>> 1), immPtr + 4)
      else
        some (toInt32 (small.val >>> 1), immPtr + 1)

/-- Modelled from the spec: `encodeVariableSizeImm(int32_t val, unsigned char* buf)` is only
declared in `hhbc.h` ("Returns the number of bytes used taken.  At most 4 bytes can be used."),
its body is not part of the sources.  The encode rule of the specification: when the value fits in
7 bits (0..127) emit the one byte `(value << 1) | 0`, otherwise emit the four bytes of the 32-bit
word `(value << 1) | 1`.  The result is the list of bytes written into `buf`; its length is the
returned byte count. -/
def encodeVariableSizeImm (val : Int) : List Byte :=
  if 0 ≤ val ∧ val ≤ 127 then
    [Fin.ofNat ((val.toNat <<< 1) ||| 0)]
  else
    storeU32 (((toUInt32 val <<< 1) ||| 1) % 4294967296)

/-! ## Operand kinds, stack flavors and instruction flags -/

/-- The C++ `enum ArgType`, generated from the `ARGTYPES` list. -/
inductive ArgType
  | NA | MA | BLA | SLA | ILA | IVA | I64A | LA | IA | DA | SA | AA | RATA | BA | OA | VSA
  deriving DecidableEq, Repr

/-- The C++ `enum FlavorDesc`. -/
inductive FlavorDesc
  | NOV | CV | VV | AV | RV | FV | UV | CVV | CRV | CUV | CVUV
  deriving DecidableEq, Repr

/-- The C++ `enum InstrFlags`: a bit set, kept as its integer value. -/
abbrev InstrFlags := Nat

/-- No flags. -/
def NF : InstrFlags := 0x0

/-- Terminal: the next instruction is not reachable via fall through or the callee returning
control. -/
def TF : InstrFlags := 0x1

/-- Control flow: after the instruction, `vmpc()` is not guaranteed to point to the next
instruction of the stream. -/
def CF : InstrFlags := 0x2

/-- Instruction uses the current FPI. -/
def FF : InstrFlags := 0x4

/-- Shorthand `(CF | TF)`. -/
def CF_TF : InstrFlags := CF ||| TF

/-- Shorthand `(CF | FF)`. -/
def CF_FF : InstrFlags := CF ||| FF

/-! ## The `OPCODES` table -/

/-- The enumerators of `enum class Op : uint8_t`, in the order of the `OPCODES` list; the
ordinal of an enumerator is its position in this list. -/
inductive OpName
  | LowInvalid | Nop | BreakTraceHint | PopA | PopC | PopV | PopR | Dup | Box | Unbox | BoxR
  | BoxRNop | UnboxR | UnboxRNop | RGetCNop | Null | NullUninit | True | False | Int | Double
  | String | Array | NewArray | NewMixedArray | NewLikeArrayL | NewPackedArray | NewStructArray
  | AddElemC | AddElemV | AddNewElemC | AddNewElemV | NewCol | ColFromArray | MapAddElemC
  | ColAddNewElemC | Cns | CnsE | CnsU | ClsCns | ClsCnsD | NameA | File | Dir | Concat
  | ConcatN | Add | Sub | Mul | AddO | SubO | MulO | Div | Mod | Pow | Xor | Not | Same | NSame
  | Eq | Neq | Lt | Lte | Gt | Gte | BitAnd | BitOr | BitXor | BitNot | Shl | Shr | CastBool
  | CastInt | CastDouble | CastString | CastArray | CastObject | InstanceOf | InstanceOfD
  | Print | Clone | Exit | Fatal | Jmp | JmpNS | JmpZ | JmpNZ | Switch | SSwitch | RetC | RetV
  | Unwind | Throw | CGetL | CUGetL | CGetL2 | CGetL3 | PushL | CGetN | CGetG | CGetS | CGetM
  | VGetL | VGetN | VGetG | VGetS | VGetM | AGetC | AGetL | GetMemoKey | AKExists | IssetL
  | IssetN | IssetG | IssetS | IssetM | EmptyL | EmptyN | EmptyG | EmptyS | EmptyM | IsTypeC
  | IsTypeL | AssertRATL | AssertRATStk | SetL | SetN | SetG | SetS | SetM | SetWithRefLM
  | SetWithRefRM | SetOpL | SetOpN | SetOpG | SetOpS | SetOpM | IncDecL | IncDecN | IncDecG
  | IncDecS | IncDecM | BindL | BindN | BindG | BindS | BindM | UnsetL | UnsetN | UnsetG
  | UnsetM | FPushFunc | FPushFuncD | FPushFuncU | FPushObjMethod | FPushObjMethodD
  | FPushClsMethod | FPushClsMethodF | FPushClsMethodD | FPushCtor | FPushCtorD | FPushCufIter
  | FPushCuf | FPushCufF | FPushCufSafe | FPassC | FPassCW | FPassCE | FPassV | FPassVNop
  | FPassR | FPassL | FPassN | FPassG | FPassS | FPassM | FCall | FCallD | FCallUnpack
  | FCallArray | FCallBuiltin | CufSafeArray | CufSafeReturn | IterInit | MIterInit | WIterInit
  | IterInitK | MIterInitK | WIterInitK | IterNext | MIterNext | WIterNext | IterNextK
  | MIterNextK | WIterNextK | DecodeCufIter | IterFree | MIterFree | CIterFree | IterBreak
  | Incl | InclOnce | Req | ReqOnce | ReqDoc | Eval | DefFunc | DefCls | DefClsNop | DefCns
  | DefTypeAlias | This | BareThis | CheckThis | InitThisLoc | StaticLoc | StaticLocInit
  | Catch | OODeclExists | VerifyParamType | VerifyRetTypeC | VerifyRetTypeV | Self | Parent
  | LateBoundCls | NativeImpl | CreateCl | CreateCont | ContEnter | ContRaise | Yield | YieldK
  | ContCheck | ContValid | ContKey | ContCurrent | WHResult | Await | IncStat | Idx | ArrayIdx
  | CheckProp | InitProp | Silence | BaseL | BaseH | DimL | DimC | DimInt | DimStr | QueryML
  | QueryMC | QueryMInt | QueryMStr | HighInvalid
  deriving DecidableEq, Repr

/-- The immediates column of an `OPCODES` row; `OA(T)` is recorded as the argument type `OA`. -/
inductive Imms
  | NA
  | ONE (a : ArgType)
  | TWO (a b : ArgType)
  | THREE (a b c : ArgType)
  | FOUR (a b c d : ArgType)
  deriving DecidableEq, Repr

/-- The inputs column of an `OPCODES` row. -/
inductive Inputs
  | NOV
  | ONE (a : FlavorDesc)
  | TWO (a b : FlavorDesc)
  | THREE (a b c : FlavorDesc)
  | MMANY | C_MMANY | V_MMANY | R_MMANY | MFINAL
  | FMANY | CVUMANY | CMANY | SMANY
  deriving DecidableEq, Repr

/-- The outputs column of an `OPCODES` row. -/
inductive Outputs
  | NOV
  | ONE (a : FlavorDesc)
  | TWO (a b : FlavorDesc)
  | INS_1 (a : FlavorDesc)
  | INS_2 (a : FlavorDesc)
  deriving DecidableEq, Repr

/-- One row `O(name, immediates, inputs, outputs, flags)` of the `OPCODES` list. -/
structure OpcodeRow where
  name : OpName
  imm : Imms
  inp : Inputs
  out : Outputs
  flags : InstrFlags
  deriving DecidableEq, Repr

/-- The row constructor, named as the list macro is. -/
abbrev O (name : OpName) (imm : Imms) (inp : Inputs) (out : Outputs) (flags : InstrFlags) :
    OpcodeRow :=
  OpcodeRow.mk name imm inp out flags

/-- The `OPCODES` list, row for row. -/
def OPCODES : List OpcodeRow :=
  [ O .LowInvalid (.NA) (.NOV) (.NOV) NF
  , O .Nop (.NA) (.NOV) (.NOV) NF
  , O .BreakTraceHint (.NA) (.NOV) (.NOV) NF
  , O .PopA (.NA) (.ONE .AV) (.NOV) NF
  , O .PopC (.NA) (.ONE .CV) (.NOV) NF
  , O .PopV (.NA) (.ONE .VV) (.NOV) NF
  , O .PopR (.NA) (.ONE .RV) (.NOV) NF
  , O .Dup (.NA) (.ONE .CV) (.TWO .CV .CV) NF
  , O .Box (.NA) (.ONE .CV) (.ONE .VV) NF
  , O .Unbox (.NA) (.ONE .VV) (.ONE .CV) NF
  , O .BoxR (.NA) (.ONE .RV) (.ONE .VV) NF
  , O .BoxRNop (.NA) (.ONE .RV) (.ONE .VV) NF
  , O .UnboxR (.NA) (.ONE .RV) (.ONE .CV) NF
  , O .UnboxRNop (.NA) (.ONE .RV) (.ONE .CV) NF
  , O .RGetCNop (.NA) (.ONE .CV) (.ONE .RV) NF
  , O .Null (.NA) (.NOV) (.ONE .CV) NF
  , O .NullUninit (.NA) (.NOV) (.ONE .UV) NF
  , O .True (.NA) (.NOV) (.ONE .CV) NF
  , O .False (.NA) (.NOV) (.ONE .CV) NF
  , O .Int (.ONE .I64A) (.NOV) (.ONE .CV) NF
  , O .Double (.ONE .DA) (.NOV) (.ONE .CV) NF
  , O .String (.ONE .SA) (.NOV) (.ONE .CV) NF
  , O .Array (.ONE .AA) (.NOV) (.ONE .CV) NF
  , O .NewArray (.ONE .IVA) (.NOV) (.ONE .CV) NF
  , O .NewMixedArray (.ONE .IVA) (.NOV) (.ONE .CV) NF
  , O .NewLikeArrayL (.TWO .LA .IVA) (.NOV) (.ONE .CV) NF
  , O .NewPackedArray (.ONE .IVA) (.CMANY) (.ONE .CV) NF
  , O .NewStructArray (.ONE .VSA) (.SMANY) (.ONE .CV) NF
  , O .AddElemC (.NA) (.THREE .CV .CV .CV) (.ONE .CV) NF
  , O .AddElemV (.NA) (.THREE .VV .CV .CV) (.ONE .CV) NF
  , O .AddNewElemC (.NA) (.TWO .CV .CV) (.ONE .CV) NF
  , O .AddNewElemV (.NA) (.TWO .VV .CV) (.ONE .CV) NF
  , O .NewCol (.ONE .IVA) (.NOV) (.ONE .CV) NF
  , O .ColFromArray (.ONE .IVA) (.ONE .CV) (.ONE .CV) NF
  , O .MapAddElemC (.NA) (.THREE .CV .CV .CV) (.ONE .CV) NF
  , O .ColAddNewElemC (.NA) (.TWO .CV .CV) (.ONE .CV) NF
  , O .Cns (.ONE .SA) (.NOV) (.ONE .CV) NF
  , O .CnsE (.ONE .SA) (.NOV) (.ONE .CV) NF
  , O .CnsU (.TWO .SA .SA) (.NOV) (.ONE .CV) NF
  , O .ClsCns (.ONE .SA) (.ONE .AV) (.ONE .CV) NF
  , O .ClsCnsD (.TWO .SA .SA) (.NOV) (.ONE .CV) NF
  , O .NameA (.NA) (.ONE .AV) (.ONE .CV) NF
  , O .File (.NA) (.NOV) (.ONE .CV) NF
  , O .Dir (.NA) (.NOV) (.ONE .CV) NF
  , O .Concat (.NA) (.TWO .CV .CV) (.ONE .CV) NF
  , O .ConcatN (.ONE .IVA) (.CMANY) (.ONE .CV) NF
  , O .Add (.NA) (.TWO .CV .CV) (.ONE .CV) NF
  , O .Sub (.NA) (.TWO .CV .CV) (.ONE .CV) NF
  , O .Mul (.NA) (.TWO .CV .CV) (.ONE .CV) NF
  , O .AddO (.NA) (.TWO .CV .CV) (.ONE .CV) NF
  , O .SubO (.NA) (.TWO .CV .CV) (.ONE .CV) NF
  , O .MulO (.NA) (.TWO .CV .CV) (.ONE .CV) NF
  , O .Div (.NA) (.TWO .CV .CV) (.ONE .CV) NF
  , O .Mod (.NA) (.TWO .CV .CV) (.ONE .CV) NF
  , O .Pow (.NA) (.TWO .CV .CV) (.ONE .CV) NF
  , O .Xor (.NA) (.TWO .CV .CV) (.ONE .CV) NF
  , O .Not (.NA) (.ONE .CV) (.ONE .CV) NF
  , O .Same (.NA) (.TWO .CV .CV) (.ONE .CV) NF
  , O .NSame (.NA) (.TWO .CV .CV) (.ONE .CV) NF
  , O .Eq (.NA) (.TWO .CV .CV) (.ONE .CV) NF
  , O .Neq (.NA) (.TWO .CV .CV) (.ONE .CV) NF
  , O .Lt (.NA) (.TWO .CV .CV) (.ONE .CV) NF
  , O .Lte (.NA) (.TWO .CV .CV) (.ONE .CV) NF
  , O .Gt (.NA) (.TWO .CV .CV) (.ONE .CV) NF
  , O .Gte (.NA) (.TWO .CV .CV) (.ONE .CV) NF
  , O .BitAnd (.NA) (.TWO .CV .CV) (.ONE .CV) NF
  , O .BitOr (.NA) (.TWO .CV .CV) (.ONE .CV) NF
  , O .BitXor (.NA) (.TWO .CV .CV) (.ONE .CV) NF
  , O .BitNot (.NA) (.ONE .CV) (.ONE .CV) NF
  , O .Shl (.NA) (.TWO .CV .CV) (.ONE .CV) NF
  , O .Shr (.NA) (.TWO .CV .CV) (.ONE .CV) NF
  , O .CastBool (.NA) (.ONE .CV) (.ONE .CV) NF
  , O .CastInt (.NA) (.ONE .CV) (.ONE .CV) NF
  , O .CastDouble (.NA) (.ONE .CV) (.ONE .CV) NF
  , O .CastString (.NA) (.ONE .CV) (.ONE .CV) NF
  , O .CastArray (.NA) (.ONE .CV) (.ONE .CV) NF
  , O .CastObject (.NA) (.ONE .CV) (.ONE .CV) NF
  , O .InstanceOf (.NA) (.TWO .CV .CV) (.ONE .CV) NF
  , O .InstanceOfD (.ONE .SA) (.ONE .CV) (.ONE .CV) NF
  , O .Print (.NA) (.ONE .CV) (.ONE .CV) NF
  , O .Clone (.NA) (.ONE .CV) (.ONE .CV) NF
  , O .Exit (.NA) (.ONE .CV) (.ONE .CV) NF
  , O .Fatal (.ONE .OA) (.ONE .CV) (.NOV) TF
  , O .Jmp (.ONE .BA) (.NOV) (.NOV) CF_TF
  , O .JmpNS (.ONE .BA) (.NOV) (.NOV) CF_TF
  , O .JmpZ (.ONE .BA) (.ONE .CV) (.NOV) CF
  , O .JmpNZ (.ONE .BA) (.ONE .CV) (.NOV) CF
  , O .Switch (.THREE .BLA .I64A .OA) (.ONE .CV) (.NOV) CF_TF
  , O .SSwitch (.ONE .SLA) (.ONE .CV) (.NOV) CF_TF
  , O .RetC (.NA) (.ONE .CV) (.NOV) CF_TF
  , O .RetV (.NA) (.ONE .VV) (.NOV) CF_TF
  , O .Unwind (.NA) (.NOV) (.NOV) TF
  , O .Throw (.NA) (.ONE .CV) (.NOV) TF
  , O .CGetL (.ONE .LA) (.NOV) (.ONE .CV) NF
  , O .CUGetL (.ONE .LA) (.NOV) (.ONE .CUV) NF
  , O .CGetL2 (.ONE .LA) (.NOV) (.INS_1 .CV) NF
  , O .CGetL3 (.ONE .LA) (.NOV) (.INS_2 .CV) NF
  , O .PushL (.ONE .LA) (.NOV) (.ONE .CV) NF
  , O .CGetN (.NA) (.ONE .CV) (.ONE .CV) NF
  , O .CGetG (.NA) (.ONE .CV) (.ONE .CV) NF
  , O .CGetS (.NA) (.TWO .AV .CV) (.ONE .CV) NF
  , O .CGetM (.ONE .MA) (.MMANY) (.ONE .CV) NF
  , O .VGetL (.ONE .LA) (.NOV) (.ONE .VV) NF
  , O .VGetN (.NA) (.ONE .CV) (.ONE .VV) NF
  , O .VGetG (.NA) (.ONE .CV) (.ONE .VV) NF
  , O .VGetS (.NA) (.TWO .AV .CV) (.ONE .VV) NF
  , O .VGetM (.ONE .MA) (.MMANY) (.ONE .VV) NF
  , O .AGetC (.NA) (.ONE .CV) (.ONE .AV) NF
  , O .AGetL (.ONE .LA) (.NOV) (.ONE .AV) NF
  , O .GetMemoKey (.NA) (.ONE .CV) (.ONE .CV) NF
  , O .AKExists (.NA) (.TWO .CV .CV) (.ONE .CV) NF
  , O .IssetL (.ONE .LA) (.NOV) (.ONE .CV) NF
  , O .IssetN (.NA) (.ONE .CV) (.ONE .CV) NF
  , O .IssetG (.NA) (.ONE .CV) (.ONE .CV) NF
  , O .IssetS (.NA) (.TWO .AV .CV) (.ONE .CV) NF
  , O .IssetM (.ONE .MA) (.MMANY) (.ONE .CV) NF
  , O .EmptyL (.ONE .LA) (.NOV) (.ONE .CV) NF
  , O .EmptyN (.NA) (.ONE .CV) (.ONE .CV) NF
  , O .EmptyG (.NA) (.ONE .CV) (.ONE .CV) NF
  , O .EmptyS (.NA) (.TWO .AV .CV) (.ONE .CV) NF
  , O .EmptyM (.ONE .MA) (.MMANY) (.ONE .CV) NF
  , O .IsTypeC (.ONE .OA) (.ONE .CV) (.ONE .CV) NF
  , O .IsTypeL (.TWO .LA .OA) (.NOV) (.ONE .CV) NF
  , O .AssertRATL (.TWO .LA .RATA) (.NOV) (.NOV) NF
  , O .AssertRATStk (.TWO .IVA .RATA) (.NOV) (.NOV) NF
  , O .SetL (.ONE .LA) (.ONE .CV) (.ONE .CV) NF
  , O .SetN (.NA) (.TWO .CV .CV) (.ONE .CV) NF
  , O .SetG (.NA) (.TWO .CV .CV) (.ONE .CV) NF
  , O .SetS (.NA) (.THREE .CV .AV .CV) (.ONE .CV) NF
  , O .SetM (.ONE .MA) (.C_MMANY) (.ONE .CV) NF
  , O .SetWithRefLM (.TWO .MA .LA) (.MMANY) (.NOV) NF
  , O .SetWithRefRM (.ONE .MA) (.R_MMANY) (.NOV) NF
  , O .SetOpL (.TWO .LA .OA) (.ONE .CV) (.ONE .CV) NF
  , O .SetOpN (.ONE .OA) (.TWO .CV .CV) (.ONE .CV) NF
  , O .SetOpG (.ONE .OA) (.TWO .CV .CV) (.ONE .CV) NF
  , O .SetOpS (.ONE .OA) (.THREE .CV .AV .CV) (.ONE .CV) NF
  , O .SetOpM (.TWO .OA .MA) (.C_MMANY) (.ONE .CV) NF
  , O .IncDecL (.TWO .LA .OA) (.NOV) (.ONE .CV) NF
  , O .IncDecN (.ONE .OA) (.ONE .CV) (.ONE .CV) NF
  , O .IncDecG (.ONE .OA) (.ONE .CV) (.ONE .CV) NF
  , O .IncDecS (.ONE .OA) (.TWO .AV .CV) (.ONE .CV) NF
  , O .IncDecM (.TWO .OA .MA) (.MMANY) (.ONE .CV) NF
  , O .BindL (.ONE .LA) (.ONE .VV) (.ONE .VV) NF
  , O .BindN (.NA) (.TWO .VV .CV) (.ONE .VV) NF
  , O .BindG (.NA) (.TWO .VV .CV) (.ONE .VV) NF
  , O .BindS (.NA) (.THREE .VV .AV .CV) (.ONE .VV) NF
  , O .BindM (.ONE .MA) (.V_MMANY) (.ONE .VV) NF
  , O .UnsetL (.ONE .LA) (.NOV) (.NOV) NF
  , O .UnsetN (.NA) (.ONE .CV) (.NOV) NF
  , O .UnsetG (.NA) (.ONE .CV) (.NOV) NF
  , O .UnsetM (.ONE .MA) (.MMANY) (.NOV) NF
  , O .FPushFunc (.ONE .IVA) (.ONE .CV) (.NOV) NF
  , O .FPushFuncD (.TWO .IVA .SA) (.NOV) (.NOV) NF
  , O .FPushFuncU (.THREE .IVA .SA .SA) (.NOV) (.NOV) NF
  , O .FPushObjMethod (.TWO .IVA .OA) (.TWO .CV .CV) (.NOV) NF
  , O .FPushObjMethodD (.THREE .IVA .SA .OA) (.ONE .CV) (.NOV) NF
  , O .FPushClsMethod (.ONE .IVA) (.TWO .AV .CV) (.NOV) NF
  , O .FPushClsMethodF (.ONE .IVA) (.TWO .AV .CV) (.NOV) NF
  , O .FPushClsMethodD (.THREE .IVA .SA .SA) (.NOV) (.NOV) NF
  , O .FPushCtor (.ONE .IVA) (.ONE .AV) (.ONE .CV) NF
  , O .FPushCtorD (.TWO .IVA .SA) (.NOV) (.ONE .CV) NF
  , O .FPushCufIter (.TWO .IVA .IA) (.NOV) (.NOV) NF
  , O .FPushCuf (.ONE .IVA) (.ONE .CV) (.NOV) NF
  , O .FPushCufF (.ONE .IVA) (.ONE .CV) (.NOV) NF
  , O .FPushCufSafe (.ONE .IVA) (.TWO .CV .CV) (.TWO .CV .CV) NF
  , O .FPassC (.ONE .IVA) (.ONE .CV) (.ONE .FV) FF
  , O .FPassCW (.ONE .IVA) (.ONE .CV) (.ONE .FV) FF
  , O .FPassCE (.ONE .IVA) (.ONE .CV) (.ONE .FV) FF
  , O .FPassV (.ONE .IVA) (.ONE .VV) (.ONE .FV) FF
  , O .FPassVNop (.ONE .IVA) (.ONE .VV) (.ONE .FV) FF
  , O .FPassR (.ONE .IVA) (.ONE .RV) (.ONE .FV) FF
  , O .FPassL (.TWO .IVA .LA) (.NOV) (.ONE .FV) FF
  , O .FPassN (.ONE .IVA) (.ONE .CV) (.ONE .FV) FF
  , O .FPassG (.ONE .IVA) (.ONE .CV) (.ONE .FV) FF
  , O .FPassS (.ONE .IVA) (.TWO .AV .CV) (.ONE .FV) FF
  , O .FPassM (.TWO .IVA .MA) (.MMANY) (.ONE .FV) FF
  , O .FCall (.ONE .IVA) (.FMANY) (.ONE .RV) CF_FF
  , O .FCallD (.THREE .IVA .SA .SA) (.FMANY) (.ONE .RV) CF_FF
  , O .FCallUnpack (.ONE .IVA) (.FMANY) (.ONE .RV) CF_FF
  , O .FCallArray (.NA) (.ONE .FV) (.ONE .RV) CF_FF
  , O .FCallBuiltin (.THREE .IVA .IVA .SA) (.CVUMANY) (.ONE .RV) NF
  , O .CufSafeArray (.NA) (.THREE .RV .CV .CV) (.ONE .CV) NF
  , O .CufSafeReturn (.NA) (.THREE .RV .CV .CV) (.ONE .RV) NF
  , O .IterInit (.THREE .IA .BA .LA) (.ONE .CV) (.NOV) CF
  , O .MIterInit (.THREE .IA .BA .LA) (.ONE .VV) (.NOV) CF
  , O .WIterInit (.THREE .IA .BA .LA) (.ONE .CV) (.NOV) CF
  , O .IterInitK (.FOUR .IA .BA .LA .LA) (.ONE .CV) (.NOV) CF
  , O .MIterInitK (.FOUR .IA .BA .LA .LA) (.ONE .VV) (.NOV) CF
  , O .WIterInitK (.FOUR .IA .BA .LA .LA) (.ONE .CV) (.NOV) CF
  , O .IterNext (.THREE .IA .BA .LA) (.NOV) (.NOV) CF
  , O .MIterNext (.THREE .IA .BA .LA) (.NOV) (.NOV) CF
  , O .WIterNext (.THREE .IA .BA .LA) (.NOV) (.NOV) CF
  , O .IterNextK (.FOUR .IA .BA .LA .LA) (.NOV) (.NOV) CF
  , O .MIterNextK (.FOUR .IA .BA .LA .LA) (.NOV) (.NOV) CF
  , O .WIterNextK (.FOUR .IA .BA .LA .LA) (.NOV) (.NOV) CF
  , O .DecodeCufIter (.TWO .IA .BA) (.ONE .CV) (.NOV) CF
  , O .IterFree (.ONE .IA) (.NOV) (.NOV) NF
  , O .MIterFree (.ONE .IA) (.NOV) (.NOV) NF
  , O .CIterFree (.ONE .IA) (.NOV) (.NOV) NF
  , O .IterBreak (.TWO .ILA .BA) (.NOV) (.NOV) CF_TF
  , O .Incl (.NA) (.ONE .CV) (.ONE .CV) CF
  , O .InclOnce (.NA) (.ONE .CV) (.ONE .CV) CF
  , O .Req (.NA) (.ONE .CV) (.ONE .CV) CF
  , O .ReqOnce (.NA) (.ONE .CV) (.ONE .CV) CF
  , O .ReqDoc (.NA) (.ONE .CV) (.ONE .CV) CF
  , O .Eval (.NA) (.ONE .CV) (.ONE .CV) CF
  , O .DefFunc (.ONE .IVA) (.NOV) (.NOV) NF
  , O .DefCls (.ONE .IVA) (.NOV) (.NOV) NF
  , O .DefClsNop (.ONE .IVA) (.NOV) (.NOV) NF
  , O .DefCns (.ONE .SA) (.ONE .CV) (.ONE .CV) NF
  , O .DefTypeAlias (.ONE .IVA) (.NOV) (.NOV) NF
  , O .This (.NA) (.NOV) (.ONE .CV) NF
  , O .BareThis (.ONE .OA) (.NOV) (.ONE .CV) NF
  , O .CheckThis (.NA) (.NOV) (.NOV) NF
  , O .InitThisLoc (.ONE .LA) (.NOV) (.NOV) NF
  , O .StaticLoc (.TWO .LA .SA) (.NOV) (.ONE .CV) NF
  , O .StaticLocInit (.TWO .LA .SA) (.ONE .CV) (.NOV) NF
  , O .Catch (.NA) (.NOV) (.ONE .CV) NF
  , O .OODeclExists (.ONE .OA) (.TWO .CV .CV) (.ONE .CV) NF
  , O .VerifyParamType (.ONE .LA) (.NOV) (.NOV) NF
  , O .VerifyRetTypeC (.NA) (.ONE .CV) (.ONE .CV) NF
  , O .VerifyRetTypeV (.NA) (.ONE .VV) (.ONE .VV) NF
  , O .Self (.NA) (.NOV) (.ONE .AV) NF
  , O .Parent (.NA) (.NOV) (.ONE .AV) NF
  , O .LateBoundCls (.NA) (.NOV) (.ONE .AV) NF
  , O .NativeImpl (.NA) (.NOV) (.NOV) CF_TF
  , O .CreateCl (.TWO .IVA .SA) (.CVUMANY) (.ONE .CV) NF
  , O .CreateCont (.NA) (.NOV) (.ONE .CV) CF
  , O .ContEnter (.NA) (.ONE .CV) (.ONE .CV) CF
  , O .ContRaise (.NA) (.ONE .CV) (.ONE .CV) CF
  , O .Yield (.NA) (.ONE .CV) (.ONE .CV) CF
  , O .YieldK (.NA) (.TWO .CV .CV) (.ONE .CV) CF
  , O .ContCheck (.ONE .IVA) (.NOV) (.NOV) NF
  , O .ContValid (.NA) (.NOV) (.ONE .CV) NF
  , O .ContKey (.NA) (.NOV) (.ONE .CV) NF
  , O .ContCurrent (.NA) (.NOV) (.ONE .CV) NF
  , O .WHResult (.NA) (.ONE .CV) (.ONE .CV) NF
  , O .Await (.ONE .IVA) (.ONE .CV) (.ONE .CV) CF
  , O .IncStat (.TWO .IVA .IVA) (.NOV) (.NOV) NF
  , O .Idx (.NA) (.THREE .CV .CV .CV) (.ONE .CV) NF
  , O .ArrayIdx (.NA) (.THREE .CV .CV .CV) (.ONE .CV) NF
  , O .CheckProp (.ONE .SA) (.NOV) (.ONE .CV) NF
  , O .InitProp (.TWO .SA .OA) (.ONE .CV) (.NOV) NF
  , O .Silence (.TWO .LA .OA) (.NOV) (.NOV) NF
  , O .BaseL (.TWO .LA .OA) (.NOV) (.NOV) NF
  , O .BaseH (.NA) (.NOV) (.NOV) NF
  , O .DimL (.THREE .LA .OA .OA) (.NOV) (.NOV) NF
  , O .DimC (.THREE .IVA .OA .OA) (.NOV) (.NOV) NF
  , O .DimInt (.THREE .I64A .OA .OA) (.NOV) (.NOV) NF
  , O .DimStr (.THREE .SA .OA .OA) (.NOV) (.NOV) NF
  , O .QueryML (.FOUR .IVA .OA .OA .LA) (.MFINAL) (.ONE .CV) NF
  , O .QueryMC (.THREE .IVA .OA .OA) (.MFINAL) (.ONE .CV) NF
  , O .QueryMInt (.FOUR .IVA .OA .OA .I64A) (.MFINAL) (.ONE .CV) NF
  , O .QueryMStr (.FOUR .IVA .OA .OA .SA) (.MFINAL) (.ONE .CV) NF
  , O .HighInvalid (.NA) (.NOV) (.NOV) NF
  ]

/-- The immediates of a row as the list of their argument types (`NA` is the empty list). -/
def Imms.toList : Imms → List ArgType
  | .NA => []
  | .ONE a => [a]
  | .TWO a b => [a, b]
  | .THREE a b c => [a, b, c]
  | .FOUR a b c d => [a, b, c, d]

/-! ## Opcodes -/

/-- A value of `enum class Op : uint8_t`: any byte, whether or not an enumerator names it. -/
abbrev Op := Fin 256

/-- The value `Op::name` of an enumerator: its ordinal. -/
def Op.ofName (n : OpName) : Op :=
  Fin.ofNat n.toCtorIdx

def OpLowInvalid : Op := Op.ofName .LowInvalid
def OpHighInvalid : Op := Op.ofName .HighInvalid
def OpJmp : Op := Op.ofName .Jmp
def OpJmpNS : Op := Op.ofName .JmpNS
def OpJmpZ : Op := Op.ofName .JmpZ
def OpJmpNZ : Op := Op.ofName .JmpNZ
def OpSwitch : Op := Op.ofName .Switch
def OpSSwitch : Op := Op.ofName .SSwitch
def OpFatal : Op := Op.ofName .Fatal
def OpRetC : Op := Op.ofName .RetC
def OpRetV : Op := Op.ofName .RetV
def OpUnwind : Op := Op.ofName .Unwind
def OpThrow : Op := Op.ofName .Throw
def OpNativeImpl : Op := Op.ofName .NativeImpl
def OpIterBreak : Op := Op.ofName .IterBreak
def OpNewStructArray : Op := Op.ofName .NewStructArray
def OpFPushFunc : Op := Op.ofName .FPushFunc
def OpFPushFuncD : Op := Op.ofName .FPushFuncD
def OpFPushFuncU : Op := Op.ofName .FPushFuncU
def OpFPushObjMethod : Op := Op.ofName .FPushObjMethod
def OpFPushObjMethodD : Op := Op.ofName .FPushObjMethodD
def OpFPushClsMethod : Op := Op.ofName .FPushClsMethod
def OpFPushClsMethodF : Op := Op.ofName .FPushClsMethodF
def OpFPushClsMethodD : Op := Op.ofName .FPushClsMethodD
def OpFPushCtor : Op := Op.ofName .FPushCtor
def OpFPushCtorD : Op := Op.ofName .FPushCtorD
def OpFPushCufIter : Op := Op.ofName .FPushCufIter
def OpFPushCuf : Op := Op.ofName .FPushCuf
def OpFPushCufF : Op := Op.ofName .FPushCufF
def OpFPushCufSafe : Op := Op.ofName .FPushCufSafe
def OpFPassC : Op := Op.ofName .FPassC
def OpFPassCW : Op := Op.ofName .FPassCW
def OpFPassCE : Op := Op.ofName .FPassCE
def OpFPassV : Op := Op.ofName .FPassV
def OpFPassVNop : Op := Op.ofName .FPassVNop
def OpFPassR : Op := Op.ofName .FPassR
def OpFPassL : Op := Op.ofName .FPassL
def OpFPassN : Op := Op.ofName .FPassN
def OpFPassG : Op := Op.ofName .FPassG
def OpFPassS : Op := Op.ofName .FPassS
def OpFPassM : Op := Op.ofName .FPassM
def OpFCall : Op := Op.ofName .FCall
def OpFCallD : Op := Op.ofName .FCallD
def OpFCallArray : Op := Op.ofName .FCallArray
def OpFCallUnpack : Op := Op.ofName .FCallUnpack

/-- The constant `Op_count = uint8_t(Op::HighInvalid) + 1`. -/
def Op_count : Nat := OpHighInvalid.val + 1

/-- The predicate `isValidOpcode`: `op > OpLowInvalid && op < OpHighInvalid`, comparing byte
values. -/
def isValidOpcode (op : Op) : Bool :=
  decide (op > OpLowInvalid) && decide (op < OpHighInvalid)

/-- The row of the `OPCODES` list an opcode value indexes, if any. -/
def opcodeRow (opcode : Op) : Option OpcodeRow :=
  OPCODES[opcode.val]?

/-- The table `instrFlagsData[]`: the flags column of `OPCODES`. -/
def instrFlagsData : List InstrFlags :=
  OPCODES.map (fun row => row.flags)

/-- The lookup `instrFlags(opcode) = instrFlagsData[uint8_t(opcode)]`; `none` for an index
outside the table. -/
def instrFlags (opcode : Op) : Option InstrFlags :=
  instrFlagsData[opcode.val]?

/-- The test `instrIsControlFlow(opcode) = (instrFlags(opcode) & CF) != 0`. -/
def instrIsControlFlow (opcode : Op) : Option Bool :=
  (instrFlags opcode).map (fun flags => (flags &&& CF) != 0)

/-- The predicate `isUnconditionalJmp`: `opcode == Op::Jmp || opcode == Op::JmpNS`. -/
def isUnconditionalJmp (opcode : Op) : Bool :=
  opcode == OpJmp || opcode == OpJmpNS

/-- The predicate `isConditionalJmp`: `opcode == Op::JmpZ || opcode == Op::JmpNZ`. -/
def isConditionalJmp (opcode : Op) : Bool :=
  opcode == OpJmpZ || opcode == OpJmpNZ

/-- The predicate `isJmp`: `opcode >= Op::Jmp && opcode <= Op::JmpNZ`. -/
def isJmp (opcode : Op) : Bool :=
  decide (opcode ≥ OpJmp) && decide (opcode ≤ OpJmpNZ)

/-- The predicate `isFCallStar`: the `switch` returning true for `FCall`, `FCallD`, `FCallArray` and
`FCallUnpack`, false by default. -/
def isFCallStar (opcode : Op) : Bool :=
  if opcode = OpFCall then true
  else if opcode = OpFCallD then true
  else if opcode = OpFCallArray then true
  else if opcode = OpFCallUnpack then true
  else false

/-- The predicate `isFPush`: `opcode >= OpFPushFunc && opcode <= OpFPushCufSafe`. -/
def isFPush (opcode : Op) : Bool :=
  decide (opcode ≥ OpFPushFunc) && decide (opcode ≤ OpFPushCufSafe)

/-- The predicate `isFPassStar`: the `switch` returning true for the ten cases `OpFPassC`,
`OpFPassCW`, `OpFPassCE`, `OpFPassV`, `OpFPassR`, `OpFPassL`, `OpFPassN`, `OpFPassG`, `OpFPassS`
and `OpFPassM`, false by default. -/
def isFPassStar (opcode : Op) : Bool :=
  if opcode = OpFPassC then true
  else if opcode = OpFPassCW then true
  else if opcode = OpFPassCE then true
  else if opcode = OpFPassV then true
  else if opcode = OpFPassR then true
  else if opcode = OpFPassL then true
  else if opcode = OpFPassN then true
  else if opcode = OpFPassG then true
  else if opcode = OpFPassS then true
  else if opcode = OpFPassM then true
  else false

/-- The predicate `isSwitch`: `op == OpSwitch || op == OpSSwitch`. -/
def isSwitch (op : Op) : Bool :=
  op == OpSwitch || op == OpSSwitch

/-! ## Location codes, member codes and member instructions -/

/-- The way a C++ function stops without returning a value: `not_reached()` or a failed
`assert`. -/
inductive Abort
  | not_reached
  | assertion
  deriving DecidableEq, Repr

/-- The enumerators of the C++ `enum LocationCode`; `InvalidLocationCode` is kept last.  A
run-time value of the type may be no enumerator; the functions `numLocationCodeImmsOfByte` and
`numLocationCodeStackValsOfByte` below take any value. -/
inductive LocationCode
  | LL | LC | LH | LGL | LGC | LNL | LNC | LSL | LSC | LR | InvalidLocationCode
  deriving DecidableEq, Repr

/-- The constant `NumLocationCodes = InvalidLocationCode`. -/
def NumLocationCodes : Nat := LocationCode.InvalidLocationCode.toCtorIdx

/-- The function `numLocationCodeImms`: a `switch` over the eleven enumerators; the
`InvalidLocationCode` case breaks out of it into `not_reached()`. -/
def numLocationCodeImms : LocationCode → Except Abort Int
  | .LL | .LGL | .LNL | .LSL => .ok 1
  | .LC | .LH | .LGC | .LNC | .LSC | .LR => .ok 0
  | .InvalidLocationCode => .error .not_reached

/-- The function `numLocationCodeStackVals`: a `switch` over the eleven enumerators; the
`InvalidLocationCode` case breaks out of it into `not_reached()`. -/
def numLocationCodeStackVals : LocationCode → Except Abort Int
  | .LL | .LH | .LGL | .LNL => .ok 0
  | .LC | .LGC | .LNC | .LSL | .LR => .ok 1
  | .LSC => .ok 2
  | .InvalidLocationCode => .error .not_reached

/-- The value of an enumerator of `LocationCode`: its position in the `enum`. -/
def LocationCode.toByte (lc : LocationCode) : Byte :=
  Fin.ofNat lc.toCtorIdx

/-- The function `numLocationCodeImms` on a run-time value of the type `LocationCode`.  Such a
value need not be an enumerator: `ImmVector::locationCode()` builds one from any stream byte by
the cast `LocationCode(*vec())`.  The `switch` has no `default`: the cases of the ten valid codes
return, the case `InvalidLocationCode` breaks, and a value that matches no case skips the
`switch`; the last two end in `not_reached()`. -/
def numLocationCodeImmsOfByte (lc : Byte) : Except Abort Int :=
  if lc = LocationCode.LL.toByte ∨ lc = LocationCode.LGL.toByte ∨ lc = LocationCode.LNL.toByte
      ∨ lc = LocationCode.LSL.toByte then .ok 1
  else if lc = LocationCode.LC.toByte ∨ lc = LocationCode.LH.toByte
      ∨ lc = LocationCode.LGC.toByte ∨ lc = LocationCode.LNC.toByte
      ∨ lc = LocationCode.LSC.toByte ∨ lc = LocationCode.LR.toByte then .ok 0
  else if lc = LocationCode.InvalidLocationCode.toByte then .error .not_reached
  else .error .not_reached

/-- The function `numLocationCodeStackVals` on a run-time value of the type `LocationCode`, which
need not be an enumerator: the cases of the ten valid codes return, the case
`InvalidLocationCode` breaks, and a value that matches no case skips the `switch`; the last two
end in `not_reached()`. -/
def numLocationCodeStackValsOfByte (lc : Byte) : Except Abort Int :=
  if lc = LocationCode.LL.toByte ∨ lc = LocationCode.LH.toByte ∨ lc = LocationCode.LGL.toByte
      ∨ lc = LocationCode.LNL.toByte then .ok 0
  else if lc = LocationCode.LC.toByte ∨ lc = LocationCode.LGC.toByte
      ∨ lc = LocationCode.LNC.toByte ∨ lc = LocationCode.LSL.toByte
      ∨ lc = LocationCode.LR.toByte then .ok 1
  else if lc = LocationCode.LSC.toByte then .ok 2
  else if lc = LocationCode.InvalidLocationCode.toByte then .error .not_reached
  else .error .not_reached

/-- The C++ `enum MemberCode`; `InvalidMemberCode` is last. -/
inductive MemberCode
  | MEC | MPC | MEL | MPL | MET | MPT | MQT | MEI | MW | InvalidMemberCode
  deriving DecidableEq, Repr

/-- The constant `NumMemberCodes = InvalidMemberCode`. -/
def NumMemberCodes : Nat := MemberCode.InvalidMemberCode.toCtorIdx

/-- The C++ `enum MInstrAttr`: a bit mask, kept as its integer value. -/
abbrev MInstrAttr := Nat

/-- The C++ `enum MInstr`, generated from the `MINSTRS` list. -/
inductive MInstr
  | MI_CGetM | MI_VGetM | MI_IssetM | MI_EmptyM | MI_SetM | MI_SetOpM | MI_IncDecM | MI_BindM
  | MI_UnsetM | MI_SetWithRefLM | MI_SetWithRefRM
  deriving DecidableEq, Repr

/-- The C++ `struct MInstrInfo`.  The two arrays are declared `m_baseOps[NumLocationCodes]` and
`m_intermediateOps[NumMemberCodes]`: their lengths are part of the type. -/
structure MInstrInfo where
  m_instr : MInstr
  m_baseOps : { l : List MInstrAttr // l.length = NumLocationCodes }
  m_intermediateOps : { l : List MInstrAttr // l.length = NumMemberCodes }
  m_valCount : Nat
  m_newElem : Bool
  m_finalGet : Bool
  m_name : String

/-- The method `MInstrInfo::getAttr(LocationCode lc)`: `assert(lc < NumLocationCodes)`, then
`m_baseOps[lc]`. -/
def MInstrInfo.getAttr (self : MInstrInfo) (lc : LocationCode) : Except Abort MInstrAttr :=
  if h : lc.toCtorIdx < NumLocationCodes then
    .ok (self.m_baseOps.val.get ⟨lc.toCtorIdx, by rw [self.m_baseOps.property]; exact h⟩)
  else
    .error .assertion

/-- The overload `MInstrInfo::getAttr(MemberCode mc)`: `assert(mc < NumMemberCodes)`, then
`m_intermediateOps[mc]`. -/
def MInstrInfo.getAttrMember (self : MInstrInfo) (mc : MemberCode) : Except Abort MInstrAttr :=
  if h : mc.toCtorIdx < NumMemberCodes then
    .ok (self.m_intermediateOps.val.get
      ⟨mc.toCtorIdx, by rw [self.m_intermediateOps.property]; exact h⟩)
  else
    .error .assertion

/-- The C++ `struct MInstrLocation`. -/
structure MInstrLocation where
  lcode : LocationCode
  imm : Int

/-- The method `MInstrLocation::hasImm`: `count = numLocationCodeImms(lcode)`,
`assert(count == 0 || count == 1)`, then `count` converted to `bool`. -/
def MInstrLocation.hasImm (self : MInstrLocation) : Except Abort Bool :=
  match numLocationCodeImms self.lcode with
  | .error e => .error e
  | .ok count =>
      if count = 0 ∨ count = 1 then .ok (count != 0)
      else .error .assertion

/-! ## Member instruction attributes and member code immediates -/

def MIA_none : MInstrAttr := 0x00
def MIA_warn : MInstrAttr := 0x01
def MIA_define : MInstrAttr := 0x02
def MIA_reffy : MInstrAttr := 0x04
def MIA_unset : MInstrAttr := 0x08
def MIA_new : MInstrAttr := 0x10
def MIA_final_get : MInstrAttr := 0x20
def MIA_base : MInstrAttr := MIA_warn ||| MIA_define
def MIA_intermediate : MInstrAttr := MIA_warn ||| MIA_define ||| MIA_reffy ||| MIA_unset
def MIA_intermediate_prop : MInstrAttr := MIA_warn ||| MIA_define ||| MIA_unset
def MIA_final : MInstrAttr := MIA_new ||| MIA_final_get

/-- The enumerator `MIA_more_warn`: `MIA_warn` when the build defines `HHVM_MORE_WARNINGS`,
`MIA_none` otherwise. -/
def MIA_more_warn (HHVM_MORE_WARNINGS : Bool) : MInstrAttr :=
  if HHVM_MORE_WARNINGS then MIA_warn else MIA_none

/-- One row `MII(instr, attrs, bS, iS, vC, fN)` of the `MINSTRS` list; the instruction is given
by the enumerator `MI_<instr>M` the row generates, the three name-forming columns as text. -/
structure MInstrRow where
  instr : MInstr
  attrs : MInstrAttr
  bS : String
  iS : String
  vC : Nat
  fN : String
  deriving DecidableEq, Repr

/-- The row constructor, named as the list macro is. -/
abbrev MII (instr : MInstr) (attrs : MInstrAttr) (bS iS : String) (vC : Nat) (fN : String) :
    MInstrRow :=
  MInstrRow.mk instr attrs bS iS vC fN

/-- The `MINSTRS` list, row for row, for either setting of `HHVM_MORE_WARNINGS`. -/
def MINSTRS (HHVM_MORE_WARNINGS : Bool) : List MInstrRow :=
  [ MII .MI_CGetM (MIA_warn ||| MIA_final_get) "W" "W" 0 "NotSuppNewElem"
  , MII .MI_VGetM (MIA_define ||| MIA_reffy ||| MIA_new ||| MIA_final_get) "D" "D" 0
      "VGetNewElem"
  , MII .MI_IssetM MIA_final_get "" "" 0 "NotSuppNewElem"
  , MII .MI_EmptyM MIA_final_get "" "" 0 "NotSuppNewElem"
  , MII .MI_SetM (MIA_define ||| MIA_new) "D" "D" 1 "SetNewElem"
  , MII .MI_SetOpM
      (MIA_more_warn HHVM_MORE_WARNINGS ||| MIA_define ||| MIA_new ||| MIA_final_get)
      "WD" "WD" 1 "SetOpNewElem"
  , MII .MI_IncDecM
      (MIA_more_warn HHVM_MORE_WARNINGS ||| MIA_define ||| MIA_new ||| MIA_final_get)
      "WD" "WD" 0 "IncDecNewElem"
  , MII .MI_BindM (MIA_define ||| MIA_reffy ||| MIA_new ||| MIA_final_get) "D" "D" 1
      "BindNewElem"
  , MII .MI_UnsetM MIA_unset "" "U" 0 "NotSuppNewElem"
  , MII .MI_SetWithRefLM (MIA_define ||| MIA_reffy ||| MIA_new ||| MIA_final_get) "D" "D" 1
      "SetWithRefNewElem"
  , MII .MI_SetWithRefRM (MIA_define ||| MIA_reffy ||| MIA_new ||| MIA_final_get) "D" "D" 1
      "SetWithRefNewElem"
  ]

/-- The predicate `memberCodeHasImm`. -/
def memberCodeHasImm (mc : MemberCode) : Bool :=
  mc == .MEL || mc == .MPL || mc == .MET || mc == .MPT || mc == .MEI || mc == .MQT

/-- The predicate `memberCodeImmIsLoc`. -/
def memberCodeImmIsLoc (mc : MemberCode) : Bool :=
  mc == .MEL || mc == .MPL

/-- The predicate `memberCodeImmIsString`. -/
def memberCodeImmIsString (mc : MemberCode) : Bool :=
  mc == .MET || mc == .MPT || mc == .MQT

/-- The predicate `memberCodeImmIsInt`. -/
def memberCodeImmIsInt (mc : MemberCode) : Bool :=
  mc == .MEI

/-- The C++ `enum class MCodeImm`. -/
inductive MCodeImm
  | None | Int | String | Local
  deriving DecidableEq, Repr

/-- The function `memberCodeImmType`: four tests in sequence, each returning, and
`not_reached()` after them. -/
def memberCodeImmType (mc : MemberCode) : Except Abort MCodeImm :=
  if !memberCodeHasImm mc then .ok MCodeImm.None
  else if memberCodeImmIsLoc mc then .ok MCodeImm.Local
  else if memberCodeImmIsString mc then .ok MCodeImm.String
  else if memberCodeImmIsInt mc then .ok MCodeImm.Int
  else .error Abort.not_reached

/-- The function `mcodeStackVals`: `!memberCodeHasImm(mc) && mc != MW ? 1 : 0`. -/
def mcodeStackVals (mc : MemberCode) : Int :=
  if !memberCodeHasImm mc && mc != .MW then 1 else 0

/-! ## Fixed-width reads, immediate vectors and switch tables -/

/-- The function template `readData<Out>(it)` at `Out = Op`: the byte at the cursor and the
cursor advanced by `sizeof(Op) = 1`. -/
def readDataOp (buf : List Byte) (it : Nat) : Option (Op × Nat) :=
  match buf[it]? with
  | none => none
  | some b => some (b, it + 1)

/-- The function template `readData<Out>(it)` at `Out = int32_t`: the value at the cursor and the
cursor advanced by `sizeof(int32_t) = 4`. -/
def readDataInt32 (buf : List Byte) (it : Nat) : Option (Int × Nat) :=
  match loadU32 buf it with
  | none => none
  | some w => some (toInt32 w, it + 4)

/-- Modelled from the spec: the typedef `Offset` is declared in `hphp/runtime/base/types.h`,
which is not part of the sources.  The specification describes a switch vector as a 4-byte
element count followed by packed 4-byte elements, so `Offset` is a signed 32-bit integer and
`readData<Offset>` reads as `readData<int32_t>` does. -/
def readDataOffset (buf : List Byte) (it : Nat) : Option (Int × Nat) :=
  readDataInt32 buf it

/-- Modelled from the spec: the typedef `Id` is declared in `hphp/runtime/base/types.h`, which is
not part of the sources.  The header lists `Id` among the 32-bit immediates of `ARGTYPES` and
pairs it with an `Offset` in `StrVecItem`, the 8-byte entry of a string switch vector, so `Id` is
a signed 32-bit integer and `readData<Id>` reads as `readData<int32_t>` does. -/
def readDataId (buf : List Byte) (it : Nat) : Option (Int × Nat) :=
  readDataInt32 buf it

/-- The C++ `struct ImmVector`, a view into the stream; the pointer `m_start` is a cursor. -/
structure ImmVector where
  m_length : Int
  m_numStack : Int
  m_start : Nat
  deriving DecidableEq, Repr

/-- The function `ImmVector::createFromStream(const uint8_t* opcode)`: `size` is the `int32_t`
at the cursor, `stackCount` the next one, and the vector starts after the two. -/
def ImmVector.createFromStream (buf : List Byte) (opcode : Nat) : Option ImmVector :=
  match loadU32 buf opcode, loadU32 buf (opcode + 4) with
  | some size, some stackCount => some ⟨toInt32 size, toInt32 stackCount, opcode + 4 + 4⟩
  | _, _ => none

/-- The overload `ImmVector::createFromStream(const int32_t* stream)`: `size` is `stream[0]`, the
vector starts at `stream + 1`, and the stack count is 0. -/
def ImmVector.createFromStreamInt32 (buf : List Byte) (stream : Nat) : Option ImmVector :=
  match loadU32 buf stream with
  | some size => some ⟨toInt32 size, 0, stream + 4⟩
  | none => none

/-- The accessor `ImmVector::vec()`. -/
def ImmVector.vec (self : ImmVector) : Nat := self.m_start

/-- The accessor `ImmVector::size()`. -/
def ImmVector.size (self : ImmVector) : Int := self.m_length

/-- The accessor `ImmVector::numStackValues()`. -/
def ImmVector.numStackValues (self : ImmVector) : Int := self.m_numStack

/-- The loop of `foreachSwitchTarget` with `count` iterations left: when `isStr`, skip an `Id`;
then read an `Offset` and pass it to `func`.  The result lists the arguments of the calls of
`func`, in call order. -/
def foreachSwitchTargetLoop (buf : List Byte) (isStr : Bool) : Nat → Nat → Option (List Int)
  | 0, _ => some []
  | count + 1, op =>
      match (if isStr then readDataId buf op else some (0, op)) with
      | none => none
      | some (_, op1) =>
          match readDataOffset buf op1 with
          | none => none
          | some (target, op2) =>
              match foreachSwitchTargetLoop buf isStr count op2 with
              | none => none
              | some targets => some (target :: targets)

/-- The function template `foreachSwitchTarget(const Op* op, L func)`: `assert(isSwitch(*op))`,
read the opcode, read the `int32_t` size, then run the loop `for (int i = 0; i < size; ++i)`.
The result lists the arguments of the calls of `func`, in call order; `none` stands for a failed
assertion or a read outside the buffer. -/
def foreachSwitchTarget (buf : List Byte) (op : Nat) : Option (List Int) :=
  match readDataOp buf op with
  | none => none
  | some (opcode, op1) =>
      if isSwitch opcode then
        match readDataInt32 buf op1 with
        | none => none
        | some (size, op2) => foreachSwitchTargetLoop buf (opcode == OpSSwitch) size.toNat op2
      else
        none

/-- The loop of `foreachSwitchString` with `count` iterations left: read an `Id` and pass it to
`func`, then skip an `Offset`.  The result lists the arguments of the calls of `func`, in call
order. -/
def foreachSwitchStringLoop (buf : List Byte) : Nat → Nat → Option (List Int)
  | 0, _ => some []
  | count + 1, op =>
      match readDataId buf op with
      | none => none
      | some (str, op1) =>
          match readDataOffset buf op1 with
          | none => none
          | some (_, op2) =>
              match foreachSwitchStringLoop buf count op2 with
              | none => none
              | some strs => some (str :: strs)

/-- The function template `foreachSwitchString(const Op* op, L func)`:
`assert(*op == Op::SSwitch)`, read the opcode, set `size` to the `int32_t` count minus 1 ("the
last item is the default"), then run the loop `for (int i = 0; i < size; ++i)`.  The result lists
the arguments of the calls of `func`, in call order; `none` stands for a failed assertion or a
read outside the buffer. -/
def foreachSwitchString (buf : List Byte) (op : Nat) : Option (List Int) :=
  match readDataOp buf op with
  | none => none
  | some (opcode, op1) =>
      if opcode = OpSSwitch then
        match readDataInt32 buf op1 with
        | none => none
        | some (count, op2) =>
            foreachSwitchStringLoop buf (toInt32 (toUInt32 (count - 1))).toNat op2
      else
        none

/-- The `SETOP_OPS` list: each row `SETOP_OP(setOpOp, bcOp)` pairs the name of a `SetOpOp`
enumerator with the binary bytecode op `Op<bcOp>` it corresponds to; the value of the enumerator
in `enum class SetOpOp : uint8_t` is the position of its row. -/
def SETOP_OPS : List (String × OpName) :=
  [ ("PlusEqual", .Add)
  , ("MinusEqual", .Sub)
  , ("MulEqual", .Mul)
  , ("ConcatEqual", .Concat)
  , ("DivEqual", .Div)
  , ("PowEqual", .Pow)
  , ("ModEqual", .Mod)
  , ("AndEqual", .BitAnd)
  , ("OrEqual", .BitOr)
  , ("XorEqual", .BitXor)
  , ("SlEqual", .Shl)
  , ("SrEqual", .Shr)
  , ("PlusEqualO", .AddO)
  , ("MinusEqualO", .SubO)
  , ("MulEqualO", .MulO)
  ]

/-! ## Sub-operator enumerations and their names -/

/-- The name list `ISTYPE_OPS`. -/
def ISTYPE_OPS : List String :=
  ["Null", "Bool", "Int", "Dbl", "Str", "Arr", "Obj", "Scalar"]

/-- The name list `INITPROP_OPS`. -/
def INITPROP_OPS : List String :=
  ["Static", "NonStatic"]

/-- The name list `FATAL_OPS`. -/
def FATAL_OPS : List String :=
  ["Runtime", "Parse", "RuntimeOmitFrame"]

/-- The name list `INCDEC_OPS`. -/
def INCDEC_OPS : List String :=
  ["PreInc", "PostInc", "PreDec", "PostDec", "PreIncO", "PostIncO", "PreDecO", "PostDecO"]

/-- The name list `BARETHIS_OPS`. -/
def BARETHIS_OPS : List String :=
  ["Notice", "NoNotice", "NeverNull"]

/-- The name list `SILENCE_OPS`. -/
def SILENCE_OPS : List String :=
  ["Start", "End"]

/-- The name list `OO_DECL_EXISTS_OPS`. -/
def OO_DECL_EXISTS_OPS : List String :=
  ["Class", "Interface", "Trait"]

/-- The name list `OBJMETHOD_OPS`. -/
def OBJMETHOD_OPS : List String :=
  ["NullThrows", "NullSafe"]

/-- The name list `SWITCH_KINDS`. -/
def SWITCH_KINDS : List String :=
  ["Unbounded", "Bounded"]

/-- The name list `QUERY_M_OPS`. -/
def QUERY_M_OPS : List String :=
  ["CGet", "Isset", "Empty"]

/-- The name list `PROP_ELEM_OPS`. -/
def PROP_ELEM_OPS : List String :=
  ["Prop", "PropQ", "Elem"]

/-- The list `M_OP_FLAGS` of rows `FLAG(name, val)`; `Define` in the value of `Reffy`, and `Warn`
and `Define` in the value of `WarnDefine`, are the values of the earlier rows. -/
def M_OP_FLAGS : List (String × Nat) :=
  [ ("None", 0)
  , ("Warn", 1 <<< 0)
  , ("Define", 1 <<< 1)
  , ("Unset", 1 <<< 2)
  , ("Reffy", (1 <<< 1) ||| (1 <<< 3))
  , ("WarnDefine", (1 <<< 0) ||| (1 <<< 1))
  ]

/-- A sub-operator enumeration `enum class T : uint8_t`: its enumerators, each with its name and
its value. -/
abbrev SubopEnum := List (String × Nat)

/-- The enumeration a name list declares through `#define X(name) name,`: the enumerator at
position `i` has the value `i`. -/
def enumClass (names : List String) : SubopEnum :=
  names.zip (List.range names.length)

/-- The sub-operator enumerations the header declares, each under the name of its type, in the
order of the `subopToName` overloads. -/
def subopEnums : List (String × SubopEnum) :=
  [ ("InitPropOp", enumClass INITPROP_OPS)
  , ("IsTypeOp", enumClass ISTYPE_OPS)
  , ("FatalOp", enumClass FATAL_OPS)
  , ("SetOpOp", enumClass (SETOP_OPS.map Prod.fst))
  , ("IncDecOp", enumClass INCDEC_OPS)
  , ("BareThisOp", enumClass BARETHIS_OPS)
  , ("SilenceOp", enumClass SILENCE_OPS)
  , ("OODeclExistsOp", enumClass OO_DECL_EXISTS_OPS)
  , ("ObjMethodOp", enumClass OBJMETHOD_OPS)
  , ("SwitchKind", enumClass SWITCH_KINDS)
  , ("MOpFlags", M_OP_FLAGS)
  , ("QueryMOp", enumClass QUERY_M_OPS)
  , ("PropElemOp", enumClass PROP_ELEM_OPS)
  ]

/-- Modelled from the spec: the overloads of `subopToName` are only declared in `hhbc.h`; their
bodies are not part of the sources.  Section 4.6 of the specification: each enumeration has a
bijection between ordinal and canonical name string, and `subopToName` is total over all valid
ordinals.  The name of the enumerator whose value is `op`; `none` when `op` is the value of no
enumerator. -/
def subopToName (e : SubopEnum) (op : Nat) : Option String :=
  (e.find? (fun p => p.2 == op)).map Prod.fst

/-- Modelled from the spec: the function template `nameToSubop<SubOpType>(const char*)` is only
declared in `hhbc.h` ("Returns folly::none if the string is not recognized as that type of
subop"); its body is not part of the sources.  The value of the enumerator with the given name;
`none`, the absent result, when the enumeration has no such name. -/
def nameToSubop (e : SubopEnum) (name : String) : Option Nat :=
  (e.find? (fun p => p.1 == name)).map Prod.snd

/-! ## Fixed-width writes -/

/-- The C++ conversion `(uint64_t)x` of a signed integer: reduction modulo `2^64`. -/
def toUInt64 (x : Int) : Nat :=
  (x % 18446744073709551616).toNat

/-- The C++ conversion `(int64_t)x` of an unsigned value: the two's complement reading of its
low 64 bits. -/
def toInt64 (x : Nat) : Int :=
  if x % 18446744073709551616 < 9223372036854775808 then
    ((x % 18446744073709551616 : Nat) : Int)
  else ((x % 18446744073709551616 : Nat) : Int) - 18446744073709551616

/-- The load of a 64-bit word: eight bytes at cursor `p`, little-endian. -/
def loadU64 (buf : List Byte) (p : Nat) : Option Nat :=
  match loadU32 buf p, loadU32 buf (p + 4) with
  | some lo, some hi => some (lo + 4294967296 * hi)
  | _, _ => none

/-- The store of a 64-bit word: its eight bytes, little-endian. -/
def storeU64 (w : Nat) : List Byte :=
  storeU32 (w % 4294967296) ++ storeU32 (w / 4294967296 % 4294967296)

/-- The function template `readData<Out>(it)` at `Out = int64_t`: the value at the cursor and the
cursor advanced by `sizeof(int64_t) = 8`. -/
def readDataInt64 (buf : List Byte) (it : Nat) : Option (Int × Nat) :=
  match loadU64 buf it with
  | none => none
  | some w => some (toInt64 w, it + 8)

/-- The function template `encodeToVector<T>(vec, val)` at `T = int32_t`: the vector is resized
by `sizeof(T) = 4` and the bytes of `val` are copied to its old end. -/
def encodeToVectorInt32 (vec : List Byte) (val : Int) : List Byte :=
  vec ++ storeU32 (toUInt32 val)

/-- The function template `encodeToVector<T>(vec, val)` at `T = int64_t`: the vector is resized
by `sizeof(T) = 8` and the bytes of `val` are copied to its old end. -/
def encodeToVectorInt64 (vec : List Byte) (val : Int) : List Byte :=
  vec ++ storeU64 (toUInt64 val)

/-! ## Further classification predicates and sub-operator types -/

/-- The argument types `ARGTYPES` lists with `ARGTYPEVEC`, the vector kinds: `MA`, `BLA`, `SLA`,
`ILA` and `VSA`. -/
def ArgType.isVec : ArgType → Bool
  | .MA | .BLA | .SLA | .ILA | .VSA => true
  | _ => false

/-- The predicate `isFPushCuf`: `opcode >= OpFPushCufIter && opcode <= OpFPushCufSafe`. -/
def isFPushCuf (opcode : Op) : Bool :=
  decide (opcode ≥ OpFPushCufIter) && decide (opcode ≤ OpFPushCufSafe)

/-- The predicate `isFPushClsMethod`:
`opcode >= OpFPushClsMethod && opcode <= OpFPushClsMethodD`. -/
def isFPushClsMethod (opcode : Op) : Bool :=
  decide (opcode ≥ OpFPushClsMethod) && decide (opcode ≤ OpFPushClsMethodD)

/-- The predicate `isFPushCtor`: `opcode == OpFPushCtor || opcode == OpFPushCtorD`. -/
def isFPushCtor (opcode : Op) : Bool :=
  opcode == OpFPushCtor || opcode == OpFPushCtorD

/-- The predicate `isFPushFunc`: `opcode >= OpFPushFunc && opcode <= OpFPushFuncU`. -/
def isFPushFunc (opcode : Op) : Bool :=
  decide (opcode ≥ OpFPushFunc) && decide (opcode ≤ OpFPushFuncU)

/-- The C++ `enum class IncDecOp : uint8_t`, generated from `INCDEC_OPS`; the ordinal of an
enumerator is its position. -/
inductive IncDecOp
  | PreInc | PostInc | PreDec | PostDec | PreIncO | PostIncO | PreDecO | PostDecO
  deriving DecidableEq, Repr

/-- The predicate `isPre`. -/
def isPre (op : IncDecOp) : Bool :=
  op == IncDecOp.PreInc || op == IncDecOp.PreIncO
    || op == IncDecOp.PreDec || op == IncDecOp.PreDecO

/-- The predicate `isInc`. -/
def isInc (op : IncDecOp) : Bool :=
  op == IncDecOp.PreInc || op == IncDecOp.PreIncO
    || op == IncDecOp.PostInc || op == IncDecOp.PostIncO

/-- The predicate `isIncDecO`. -/
def isIncDecO (op : IncDecOp) : Bool :=
  op == IncDecOp.PreIncO || op == IncDecOp.PreDecO
    || op == IncDecOp.PostIncO || op == IncDecOp.PostDecO

/-- The predicate `mcodeIsLiteral`. -/
def mcodeIsLiteral (mcode : MemberCode) : Bool :=
  mcode == .MET || mcode == .MEI || mcode == .MPT || mcode == .MQT

/-- The predicate `mcodeIsProp`. -/
def mcodeIsProp (mcode : MemberCode) : Bool :=
  mcode == .MPC || mcode == .MPL || mcode == .MPT || mcode == .MQT

/-- The predicate `mcodeIsElem`. -/
def mcodeIsElem (mcode : MemberCode) : Bool :=
  mcode == .MEC || mcode == .MEL || mcode == .MET || mcode == .MEI

/-- The C++ `enum class MOpFlags : uint8_t`, generated from `M_OP_FLAGS`. -/
inductive MOpFlags
  | None | Warn | Define | Unset | Reffy | WarnDefine
  deriving DecidableEq, Repr

/-- The conversion `uint8_t(flag)`: the value `FLAG(name, val)` gives the enumerator. -/
def MOpFlags.toUInt8 : MOpFlags → Nat
  | .None => 0
  | .Warn => 1 <<< 0
  | .Define => 1 <<< 1
  | .Unset => 1 <<< 2
  | .Reffy => (1 <<< 1) ||| (1 <<< 3)
  | .WarnDefine => (1 <<< 0) ||| (1 <<< 1)

/-- The operator `operator&(MOpFlags a, MOpFlags b)`: `uint8_t(a) & uint8_t(b)` returned as
`bool`, true when the integer is not zero. -/
def MOpFlags.and (a b : MOpFlags) : Bool :=
  (a.toUInt8 &&& b.toUInt8) != 0

/-! ## Control-flow analyses declared by the header -/

/-- Modelled from the spec: `instrIsNonCallControlFlow(Op)` is only declared in `hhbc.h`; its
body is not part of the sources.  The header comment above the declaration and section 4.5 of the
specification describe it: an instruction is control flow when its flag bit is set, and call
instructions, although flagged, are carved out because control returns to the instruction that
follows; "non-call control flow" is the control-flow instructions that are not calls. -/
def instrIsNonCallControlFlow (opcode : Op) : Option Bool :=
  (instrIsControlFlow opcode).map (fun cf => cf && !isFCallStar opcode)

/-- A successor of an instruction as the successor rule names it: the `i`-th target encoded in
the instruction, or the instruction that follows it in the stream. -/
inductive Succ
  | target (i : Nat)
  | fallThrough
  deriving DecidableEq, Repr

/-- Modelled from the spec: `instrSuccOffsets` and `numSuccs` are only declared in `hhbc.h`;
their bodies are not part of the sources.  The successor rule of section 4.5 of the
specification, in its order: for unconditional jumps, the one encoded target; for conditional
jumps, the target plus fall-through; for multi-way branches (`Switch`, `SSwitch`), every encoded
target (`numTargets` is the element count of the target vector, which for `SSwitch` includes the
default entry); for terminal instructions, those whose flags hold `TF`, no successors; for
everything else, fall-through only. -/
def instrSuccs (opcode : Op) (numTargets : Nat) : Option (List Succ) :=
  match instrFlags opcode with
  | none => none
  | some flags =>
      if isUnconditionalJmp opcode then some [Succ.target 0]
      else if isConditionalJmp opcode then some [Succ.target 0, Succ.fallThrough]
      else if isSwitch opcode then some ((List.range numTargets).map Succ.target)
      else if flags &&& TF ≠ 0 then some []
      else some [Succ.fallThrough]

/-! ## Properties of the variable-size immediate codec -/

theorem land_one_eq_mod (n : Nat) : n &&& 1 = n % 2 :=
  Nat.and_one_is_mod n

theorem shiftRight_one_eq_div (n : Nat) : n >>> 1 = n / 2 := by
  rw [Nat.shiftRight_eq_div_pow]

theorem shiftLeft_one_eq_mul (n : Nat) : n <<< 1 = 2 * n := by
  rw [Nat.shiftLeft_eq]; omega

theorem toInt32_of_lt (n : Nat) (h : n < 2147483648) : toInt32 n = (n : Int) := by
  unfold toInt32
  have h1 : n % 4294967296 = n := Nat.mod_eq_of_lt (by omega)
  rw [h1, if_pos h]

theorem getElem?_append_offset {α : Type} (pre xs : List α) (i : Nat) :
    (pre ++ xs)[pre.length + i]? = xs[i]? := by
  rw [List.getElem?_append_right (by omega)]
  congr 1
  omega

theorem loadU32_storeU32 (pre rest : List Byte) (w : Nat) (hw : w < 4294967296) :
    loadU32 (pre ++ storeU32 w ++ rest) pre.length = some w := by
  have e0 : (pre ++ storeU32 w ++ rest)[pre.length]? = some (Fin.ofNat (w % 256)) := by
    have h := getElem?_append_offset pre (storeU32 w ++ rest) 0
    simpa [storeU32] using h
  have e1 : (pre ++ storeU32 w ++ rest)[pre.length + 1]? = some (Fin.ofNat (w / 256 % 256)) := by
    have h := getElem?_append_offset pre (storeU32 w ++ rest) 1
    simpa [storeU32] using h
  have e2 : (pre ++ storeU32 w ++ rest)[pre.length + 2]? = some (Fin.ofNat (w / 65536 % 256)) := by
    have h := getElem?_append_offset pre (storeU32 w ++ rest) 2
    simpa [storeU32] using h
  have e3 : (pre ++ storeU32 w ++ rest)[pre.length + 3]?
      = some (Fin.ofNat (w / 16777216 % 256)) := by
    have h := getElem?_append_offset pre (storeU32 w ++ rest) 3
    simpa [storeU32] using h
  unfold loadU32
  rw [e0, e1, e2, e3]
  simp only [Fin.ofNat, Option.some.injEq]
  omega

theorem encodeVariableSizeImm_small (n : Nat) (h : n ≤ 127) :
    encodeVariableSizeImm (n : Int) = [Fin.ofNat (2 * n)] := by
  unfold encodeVariableSizeImm
  have hc : (0 : Int) ≤ (n : Int) ∧ (n : Int) ≤ 127 := ⟨by omega, by omega⟩
  rw [if_pos hc, Int.toNat_ofNat, Nat.or_zero, shiftLeft_one_eq_mul]

theorem encodeVariableSizeImm_large (n : Nat) (h : 127 < n) (h2 : n ≤ 2147483647) :
    encodeVariableSizeImm (n : Int) = storeU32 (2 * n + 1) := by
  unfold encodeVariableSizeImm
  have hc : ¬ ((0 : Int) ≤ (n : Int) ∧ (n : Int) ≤ 127) := by omega
  have hu : toUInt32 (n : Int) = n := by
    unfold toUInt32
    omega
  have hor : (2 * n) ||| 1 = 2 * n + 1 :=
    (Nat.mul_add_lt_is_or (i := 1) (b := 1) (by decide) n).symm
  rw [if_neg hc, hu, shiftLeft_one_eq_mul, hor, Nat.mod_eq_of_lt (by omega)]

theorem decode_encode_at (pre rest : List Byte) (n : Nat) (h : n ≤ 2147483647) :
    decodeVariableSizeImm (pre ++ encodeVariableSizeImm (n : Int) ++ rest) pre.length
      = some ((n : Int), pre.length + (encodeVariableSizeImm (n : Int)).length) := by
  by_cases hs : n ≤ 127
  · rw [encodeVariableSizeImm_small n hs]
    have e0 : (pre ++ [(Fin.ofNat (2 * n) : Byte)] ++ rest)[pre.length]?
        = some (Fin.ofNat (2 * n)) := by
      have h0 := getElem?_append_offset pre ([(Fin.ofNat (2 * n) : Byte)] ++ rest) 0
      simpa using h0
    have hv : (Fin.ofNat (2 * n) : Byte).val = 2 * n := by
      simp only [Fin.ofNat]
      omega
    unfold decodeVariableSizeImm
    rw [e0]
    simp only [hv, land_one_eq_mod, shiftRight_one_eq_div]
    have hm : 2 * n % 2 = 0 := by omega
    have hd : 2 * n / 2 = n := by omega
    simp [hm, hd, toInt32_of_lt n (by omega)]
  · have hl : 127 < n := by omega
    rw [encodeVariableSizeImm_large n hl h]
    have e0 : (pre ++ storeU32 (2 * n + 1) ++ rest)[pre.length]?
        = some (Fin.ofNat ((2 * n + 1) % 256)) := by
      have h0 := getElem?_append_offset pre (storeU32 (2 * n + 1) ++ rest) 0
      simpa [storeU32] using h0
    have hv : ((Fin.ofNat ((2 * n + 1) % 256) : Byte).val) % 2 = 1 := by
      simp only [Fin.ofNat]
      omega
    unfold decodeVariableSizeImm
    rw [e0]
    simp only [land_one_eq_mod, hv, loadU32_storeU32 pre rest (2 * n + 1) (by omega),
      shiftRight_one_eq_div]
    have hd : (2 * n + 1) / 2 = n := by omega
    simp [hd, toInt32_of_lt n (by omega), storeU32]

theorem encodeVariableSizeImm_length_le (v : Int) : (encodeVariableSizeImm v).length ≤ 4 := by
  unfold encodeVariableSizeImm
  split <;> simp [storeU32]

/-- C1: for every integer `v` with `0 ≤ v ≤ 2^31 - 1`, `decodeVariableSizeImm` run on the bytes
the encode rule produces for `v` (wherever they sit in a stream, whatever follows them) returns
`v`; the encode rule gives the single byte `(v << 1) | 0` when `v ≤ 127` and otherwise the four
little-endian bytes of the 32-bit word `(v << 1) | 1`. -/
theorem decodeVariableSizeImm_encodeVariableSizeImm (pre rest : List Byte) (v : Int)
    (h0 : 0 ≤ v) (h1 : v ≤ 2147483647) :
    (decodeVariableSizeImm (pre ++ encodeVariableSizeImm v ++ rest) pre.length).map Prod.fst
        = some v
      ∧ (v ≤ 127 → encodeVariableSizeImm v = [Fin.ofNat ((v.toNat <<< 1) ||| 0)])
      ∧ (127 < v → encodeVariableSizeImm v = storeU32 ((v.toNat <<< 1) ||| 1)) := by
  lift v to Nat using h0 with n
  have hn : n ≤ 2147483647 := by omega
  refine ⟨?_, ?_, ?_⟩
  · rw [decode_encode_at pre rest n hn]
    rfl
  · intro hs
    rw [encodeVariableSizeImm_small n (by omega), Int.toNat_ofNat, Nat.or_zero,
      shiftLeft_one_eq_mul]
  · intro hl
    rw [encodeVariableSizeImm_large n (by omega) hn, Int.toNat_ofNat, shiftLeft_one_eq_mul,
      ← Nat.mul_add_lt_is_or (i := 1) (b := 1) (by decide) n]

/-- Scenario B of the specification: the value 200 is encoded as the little-endian word 401 and
decodes back to 200. -/
theorem decodeVariableSizeImm_encodeVariableSizeImm_witness :
    (0 : Int) ≤ 200 ∧ (200 : Int) ≤ 2147483647
      ∧ encodeVariableSizeImm 200 = [145, 1, 0, 0]
      ∧ (decodeVariableSizeImm ([] ++ encodeVariableSizeImm 200 ++ []) 0).map Prod.fst
          = some 200 :=
  ⟨by decide, by decide, by decide,
   (decodeVariableSizeImm_encodeVariableSizeImm [] [] 200 (by decide) (by decide)).1⟩

/-- C2: when the byte `b` at the cursor has low bit 0, `decodeVariableSizeImm` returns `b >> 1`
with `b` read as an unsigned byte, a value in `0..127`, and advances the cursor by exactly one
byte; any other stream holding the same byte at the cursor decodes to the same result, so no
later byte matters. -/
theorem decodeVariableSizeImm_one_byte (buf : List Byte) (immPtr : Nat) (b : Byte)
    (hb : buf[immPtr]? = some b) (hlow : b.val &&& 1 = 0) :
    decodeVariableSizeImm buf immPtr = some (((b.val >>> 1 : Nat) : Int), immPtr + 1)
      ∧ (0 : Int) ≤ ((b.val >>> 1 : Nat) : Int) ∧ ((b.val >>> 1 : Nat) : Int) ≤ 127
      ∧ ∀ buf2 : List Byte, buf2[immPtr]? = some b →
          decodeVariableSizeImm buf2 immPtr = decodeVariableSizeImm buf immPtr := by
  have hlt : b.val < 256 := b.isLt
  have hsh : b.val >>> 1 ≤ 127 := by
    rw [shiftRight_one_eq_div]
    omega
  have key : ∀ l : List Byte, l[immPtr]? = some b →
      decodeVariableSizeImm l immPtr = some (((b.val >>> 1 : Nat) : Int), immPtr + 1) := by
    intro l hl
    unfold decodeVariableSizeImm
    rw [hl]
    simp [hlow, toInt32_of_lt (b.val >>> 1) (by omega)]
  refine ⟨key buf hb, by omega, by omega, ?_⟩
  intro buf2 h2
  rw [key buf2 h2, key buf hb]

/-- Scenario A of the specification: the single byte 10 decodes to 5. -/
theorem decodeVariableSizeImm_one_byte_witness :
    decodeVariableSizeImm [10, 255, 255] 0 = some (5, 1) :=
  (decodeVariableSizeImm_one_byte [10, 255, 255] 0 10 rfl (by decide)).1

/-- C3: when the byte at the cursor has low bit 1 and four bytes `b0 b1 b2 b3` are available
there, `decodeVariableSizeImm` returns `w >> 1` for the little-endian unsigned 32-bit word `w`
they form; the result lies in `0..2^31 - 1`, so it is not negative as an `int32_t`, and the
cursor advances by exactly four bytes. -/
theorem decodeVariableSizeImm_four_bytes (buf : List Byte) (immPtr : Nat) (b0 b1 b2 b3 : Byte)
    (h0 : buf[immPtr]? = some b0) (h1 : buf[immPtr + 1]? = some b1)
    (h2 : buf[immPtr + 2]? = some b2) (h3 : buf[immPtr + 3]? = some b3)
    (hlow : b0.val &&& 1 = 1) :
    decodeVariableSizeImm buf immPtr
        = some ((((b0.val + 256 * b1.val + 65536 * b2.val + 16777216 * b3.val) >>> 1 : Nat) : Int),
            immPtr + 4)
      ∧ (0 : Int)
          ≤ (((b0.val + 256 * b1.val + 65536 * b2.val + 16777216 * b3.val) >>> 1 : Nat) : Int)
      ∧ (((b0.val + 256 * b1.val + 65536 * b2.val + 16777216 * b3.val) >>> 1 : Nat) : Int)
          ≤ 2147483647 := by
  have l0 : b0.val < 256 := b0.isLt
  have l1 : b1.val < 256 := b1.isLt
  have l2 : b2.val < 256 := b2.isLt
  have l3 : b3.val < 256 := b3.isLt
  have hsh : (b0.val + 256 * b1.val + 65536 * b2.val + 16777216 * b3.val) >>> 1
      ≤ 2147483647 := by
    rw [shiftRight_one_eq_div]
    omega
  refine ⟨?_, by omega, by omega⟩
  unfold decodeVariableSizeImm loadU32
  rw [h0, h1, h2, h3]
  simp [hlow, toInt32_of_lt _ (Nat.lt_succ_of_le hsh)]

/-- The four bytes `ff ff ff ff` decode to `2^31 - 1`, the largest value. -/
theorem decodeVariableSizeImm_four_bytes_witness :
    decodeVariableSizeImm [255, 255, 255, 255] 0 = some (2147483647, 4) :=
  (decodeVariableSizeImm_four_bytes [255, 255, 255, 255] 0 255 255 255 255 rfl rfl rfl rfl
    (by decide)).1

/-- C4: for `0 ≤ v ≤ 2^31 - 1` the encoding of `v` is exactly 1 byte long when `v < 128` and
exactly 4 bytes long when `128 ≤ v`; no value at all is encoded in more than 4 bytes; and
`decodeVariableSizeImm`, run on the encoding of `v`, advances the cursor by exactly the length
of that encoding. -/
theorem encodeVariableSizeImm_width (pre rest : List Byte) (v : Int)
    (h0 : 0 ≤ v) (h1 : v ≤ 2147483647) :
    (v < 128 → (encodeVariableSizeImm v).length = 1)
      ∧ (128 ≤ v → (encodeVariableSizeImm v).length = 4)
      ∧ (∀ w : Int, (encodeVariableSizeImm w).length ≤ 4)
      ∧ (decodeVariableSizeImm (pre ++ encodeVariableSizeImm v ++ rest) pre.length).map Prod.snd
          = some (pre.length + (encodeVariableSizeImm v).length) := by
  lift v to Nat using h0 with n
  have hn : n ≤ 2147483647 := by omega
  refine ⟨?_, ?_, encodeVariableSizeImm_length_le, ?_⟩
  · intro hs
    rw [encodeVariableSizeImm_small n (by omega)]
    rfl
  · intro hl
    rw [encodeVariableSizeImm_large n (by omega) hn]
    rfl
  · rw [decode_encode_at pre rest n hn]
    rfl

/-- The value 128 is the first one encoded in four bytes, and decoding it consumes four. -/
theorem encodeVariableSizeImm_width_witness :
    (encodeVariableSizeImm 128).length = 4
      ∧ (decodeVariableSizeImm ([7] ++ encodeVariableSizeImm 128 ++ [9]) 1).map Prod.snd
          = some (1 + 4) :=
  ⟨(encodeVariableSizeImm_width [7] [9] 128 (by decide) (by decide)).2.1 (by decide),
   (encodeVariableSizeImm_width [7] [9] 128 (by decide) (by decide)).2.2.2⟩

/-! ## Properties of the opcode table and the classification predicates -/

set_option maxRecDepth 100000

/-- The enumerator named by the `i`-th row of `OPCODES` has ordinal `i`: the enumeration and the
table list the opcodes in the same order, 255 of them. -/
theorem OPCODES_ordinals :
    OPCODES.map (fun row => row.name.toCtorIdx) = List.range 255 := by
  decide

/-- C5: for every 8-bit opcode value `op`, `isValidOpcode op` is true iff the ordinal of `op`
lies strictly between those of `LowInvalid` (0) and `HighInvalid` (254); both sentinels are
invalid and so is every byte value above `HighInvalid`. -/
theorem isValidOpcode_iff (op : Op) :
    (isValidOpcode op = true ↔ OpLowInvalid.val < op.val ∧ op.val < OpHighInvalid.val)
      ∧ OpLowInvalid.val = 0 ∧ OpHighInvalid.val = 254
      ∧ isValidOpcode OpLowInvalid = false ∧ isValidOpcode OpHighInvalid = false
      ∧ (OpHighInvalid.val < op.val → isValidOpcode op = false) := by
  revert op
  decide

/-- The byte 255, the only one above `HighInvalid`, is not a valid opcode. -/
theorem isValidOpcode_iff_witness : isValidOpcode 255 = false :=
  (isValidOpcode_iff 255).2.2.2.2.2 (by decide)

theorem jmp_rows (op : Op) :
    (isUnconditionalJmp op = true →
        instrFlags op = some CF_TF ∧ (opcodeRow op).map (fun row => row.imm) = some (.ONE .BA))
      ∧ (isConditionalJmp op = true →
        instrFlags op = some CF ∧ (opcodeRow op).map (fun row => row.imm) = some (.ONE .BA)) := by
  revert op
  decide

/-- C6: an opcode with `isUnconditionalJmp` (`Jmp`, `JmpNS`) has both `CF` and `TF` in its
`instrFlags`, an opcode with `isConditionalJmp` (`JmpZ`, `JmpNZ`) has `CF` and not `TF`; each of
the four carries exactly one immediate, the bytecode offset `BA` of its target.  By the meaning
of `TF` the former have no fall-through successor, the latter keep it. -/
theorem jmp_instrFlags (op : Op) :
    (isUnconditionalJmp op = true →
        ∃ flags, instrFlags op = some flags ∧ flags &&& CF = CF ∧ flags &&& TF = TF
          ∧ (opcodeRow op).map (fun row => row.imm.toList) = some [ArgType.BA])
      ∧ (isConditionalJmp op = true →
        ∃ flags, instrFlags op = some flags ∧ flags &&& CF = CF ∧ flags &&& TF = 0
          ∧ (opcodeRow op).map (fun row => row.imm.toList) = some [ArgType.BA]) := by
  constructor
  · intro h
    obtain ⟨hf, hr⟩ := (jmp_rows op).1 h
    refine ⟨CF_TF, hf, by decide, by decide, ?_⟩
    cases hrow : opcodeRow op with
    | none => rw [hrow] at hr; cases hr
    | some row =>
        rw [hrow] at hr
        simp only [Option.map_some', Option.some.injEq] at hr ⊢
        rw [hr]
        rfl
  · intro h
    obtain ⟨hf, hr⟩ := (jmp_rows op).2 h
    refine ⟨CF, hf, by decide, by decide, ?_⟩
    cases hrow : opcodeRow op with
    | none => rw [hrow] at hr; cases hr
    | some row =>
        rw [hrow] at hr
        simp only [Option.map_some', Option.some.injEq] at hr ⊢
        rw [hr]
        rfl

/-- The flags of `Jmp` are `CF | TF`, those of `JmpZ` are `CF`. -/
theorem jmp_instrFlags_witness :
    (∃ flags, instrFlags OpJmp = some flags ∧ flags &&& CF = CF ∧ flags &&& TF = TF
        ∧ (opcodeRow OpJmp).map (fun row => row.imm.toList) = some [ArgType.BA])
      ∧ (∃ flags, instrFlags OpJmpZ = some flags ∧ flags &&& CF = CF ∧ flags &&& TF = 0
        ∧ (opcodeRow OpJmpZ).map (fun row => row.imm.toList) = some [ArgType.BA]) :=
  ⟨(jmp_instrFlags OpJmp).1 (by decide), (jmp_instrFlags OpJmpZ).2 (by decide)⟩

theorem fcall_rows (op : Op) :
    isFCallStar op = true → instrFlags op = some CF_FF := by
  revert op
  decide

/-- C7: for every opcode with `isFCallStar` (`FCall`, `FCallD`, `FCallArray`, `FCallUnpack`),
`instrIsControlFlow` is true and the terminal bit `TF` is clear in `instrFlags`: a call is
flagged as control flow and, not being terminal, keeps its fall-through successor. -/
theorem isFCallStar_instrFlags (op : Op) (h : isFCallStar op = true) :
    instrIsControlFlow op = some true
      ∧ ∃ flags, instrFlags op = some flags ∧ flags &&& TF = 0 := by
  have hf := fcall_rows op h
  refine ⟨?_, CF_FF, hf, by decide⟩
  unfold instrIsControlFlow
  rw [hf]
  decide

/-- The flags of `FCall` hold `CF` and not `TF`. -/
theorem isFCallStar_instrFlags_witness :
    isFCallStar OpFCall = true ∧ instrIsControlFlow OpFCall = some true
      ∧ ∃ flags, instrFlags OpFCall = some flags ∧ flags &&& TF = 0 :=
  ⟨by decide, isFCallStar_instrFlags OpFCall (by decide)⟩

/-- C8: for every opcode, `instrIsNonCallControlFlow` true implies `instrIsControlFlow` true,
and `instrIsNonCallControlFlow` is false for every call opcode (`isFCallStar`): the non-call
control flow opcodes are CF-flagged opcodes, none of them a call. -/
theorem instrIsNonCallControlFlow_subset (op : Op) :
    (instrIsNonCallControlFlow op = some true → instrIsControlFlow op = some true)
      ∧ (isFCallStar op = true → instrIsNonCallControlFlow op = some false) := by
  constructor
  · intro h
    unfold instrIsNonCallControlFlow at h
    cases hcf : instrIsControlFlow op with
    | none => rw [hcf] at h; cases h
    | some cf =>
        rw [hcf] at h
        cases cf with
        | true => rfl
        | false => simp at h
  · intro h
    unfold instrIsNonCallControlFlow instrIsControlFlow
    rw [fcall_rows op h, h]
    rfl

/-- The jump `Jmp` is non-call control flow and is flagged `CF`; the call `FCall` is flagged
`CF` and is not non-call control flow. -/
theorem instrIsNonCallControlFlow_subset_witness :
    instrIsNonCallControlFlow OpJmp = some true ∧ instrIsControlFlow OpJmp = some true
      ∧ instrIsControlFlow OpFCall = some true
      ∧ instrIsNonCallControlFlow OpFCall = some false :=
  ⟨by decide, (instrIsNonCallControlFlow_subset OpJmp).1 (by decide), by decide,
   (instrIsNonCallControlFlow_subset OpFCall).2 (by decide)⟩

theorem terminal_rows (op : Op) :
    (isConditionalJmp op = true → instrFlags op = some CF)
      ∧ (isUnconditionalJmp op = true → isSwitch op = false)
      ∧ (op ∈ [OpFatal, OpThrow, OpUnwind, OpRetC, OpRetV, OpNativeImpl] →
          isUnconditionalJmp op = false ∧ isConditionalJmp op = false
            ∧ isSwitch op = false) := by
  revert op
  decide

/-- C9, as stated, fails: `Jmp` has the terminal bit `TF` in its flags, and the successor rule
gives it one successor, its encoded target, not zero. -/
theorem terminal_succs_counterexample :
    instrFlags OpJmp = some CF_TF ∧ CF_TF &&& TF = TF ∧ TF ≠ 0
      ∧ instrSuccs OpJmp 0 = some [Succ.target 0]
      ∧ ([Succ.target 0] : List Succ).length = 1 := by
  decide

/-- C9, amended: every opcode whose flags include the terminal bit `TF` has no fall-through
successor under the successor rule; its successors are exactly the one encoded target for an
unconditional jump (`Jmp`, `JmpNS`), exactly the encoded targets for a switch (`Switch`,
`SSwitch`), and none for `Fatal`, `Throw`, `Unwind`, `RetC`, `RetV` and `NativeImpl`. -/
theorem terminal_succs (op : Op) (numTargets : Nat) (flags : InstrFlags)
    (hf : instrFlags op = some flags) (ht : flags &&& TF ≠ 0) :
    ∃ succs, instrSuccs op numTargets = some succs
      ∧ Succ.fallThrough ∉ succs
      ∧ (isUnconditionalJmp op = true → succs = [Succ.target 0])
      ∧ (isSwitch op = true → isUnconditionalJmp op = false ∧
          succs = (List.range numTargets).map Succ.target)
      ∧ (op ∈ [OpFatal, OpThrow, OpUnwind, OpRetC, OpRetV, OpNativeImpl] → succs = []) := by
  obtain ⟨hcond, hexcl, hnone⟩ := terminal_rows op
  unfold instrSuccs
  rw [hf]
  by_cases hu : isUnconditionalJmp op = true
  · refine ⟨[Succ.target 0], ?_, ?_, ?_, ?_, ?_⟩
    · simp [hu]
    · simp
    · intro _
      rfl
    · intro hs
      rw [hexcl hu] at hs
      cases hs
    · intro hm
      rw [(hnone hm).1] at hu
      cases hu
  · have hu2 : isUnconditionalJmp op = false := by simpa using hu
    by_cases hc : isConditionalJmp op = true
    · have hcf := hcond hc
      rw [hf] at hcf
      have hflags : flags = CF := Option.some.inj hcf
      rw [hflags] at ht
      exact absurd (by decide) ht
    · have hc2 : isConditionalJmp op = false := by simpa using hc
      by_cases hs : isSwitch op = true
      · refine ⟨(List.range numTargets).map Succ.target, ?_, ?_, ?_, ?_, ?_⟩
        · simp [hu2, hc2, hs]
        · simp
        · intro h
          rw [hu2] at h
          cases h
        · intro _
          exact ⟨hu2, rfl⟩
        · intro hm
          rw [(hnone hm).2.2] at hs
          cases hs
      · have hs2 : isSwitch op = false := by simpa using hs
        refine ⟨[], ?_, ?_, ?_, ?_, ?_⟩
        · simp [hu2, hc2, hs2, ht]
        · simp
        · intro h
          rw [hu2] at h
          cases h
        · intro h
          rw [hs2] at h
          cases h
        · intro _
          rfl

/-- The terminal `Switch` with three encoded targets has exactly these three successors and no
fall-through; the terminal `Throw` has none. -/
theorem terminal_succs_witness :
    (∃ succs, instrSuccs OpSwitch 3 = some succs
      ∧ Succ.fallThrough ∉ succs
      ∧ (isUnconditionalJmp OpSwitch = true → succs = [Succ.target 0])
      ∧ (isSwitch OpSwitch = true → isUnconditionalJmp OpSwitch = false ∧
          succs = (List.range 3).map Succ.target)
      ∧ (OpSwitch ∈ [OpFatal, OpThrow, OpUnwind, OpRetC, OpRetV, OpNativeImpl] → succs = []))
      ∧ instrFlags OpSwitch = some CF_TF ∧ CF_TF &&& TF ≠ 0 :=
  ⟨terminal_succs OpSwitch 3 CF_TF (by decide) (by decide), by decide, by decide⟩

/-- C10: for every opcode value, `isJmp` (the ordinal range `Jmp..JmpNZ`) holds iff the opcode is
one of `Jmp`, `JmpNS`, `JmpZ`, `JmpNZ`, that is iff `isUnconditionalJmp` or `isConditionalJmp`
holds; the four occupy the consecutive ordinals 83 to 86, so nothing else lies in the range. -/
theorem isJmp_iff (op : Op) :
    (isJmp op = true ↔ op = OpJmp ∨ op = OpJmpNS ∨ op = OpJmpZ ∨ op = OpJmpNZ)
      ∧ (isJmp op = true ↔ isUnconditionalJmp op = true ∨ isConditionalJmp op = true)
      ∧ (isJmp op = true ↔ OpJmp.val ≤ op.val ∧ op.val ≤ OpJmpNZ.val)
      ∧ OpJmp.val = 83 ∧ OpJmpNS.val = 84 ∧ OpJmpZ.val = 85 ∧ OpJmpNZ.val = 86 := by
  revert op
  decide

/-- C11: for every opcode value, `isFPush` (the ordinal range `FPushFunc..FPushCufSafe`, 151 to
164) holds iff the opcode is one of the fourteen `FPush*` opcodes, which are pairwise distinct;
equivalently iff the row of `OPCODES` it indexes is named by one of them.  No other opcode lies in
the range and none of the fourteen lies outside it. -/
theorem isFPush_iff (op : Op) :
    (isFPush op = true ↔
        op ∈ [OpFPushFunc, OpFPushFuncD, OpFPushFuncU, OpFPushObjMethod, OpFPushObjMethodD,
          OpFPushClsMethod, OpFPushClsMethodF, OpFPushClsMethodD, OpFPushCtor, OpFPushCtorD,
          OpFPushCufIter, OpFPushCuf, OpFPushCufF, OpFPushCufSafe])
      ∧ (isFPush op = true ↔ OpFPushFunc.val ≤ op.val ∧ op.val ≤ OpFPushCufSafe.val)
      ∧ (isFPush op = true ↔
        (opcodeRow op).map (fun row => row.name) ∈
          [some OpName.FPushFunc, some OpName.FPushFuncD, some OpName.FPushFuncU,
           some OpName.FPushObjMethod, some OpName.FPushObjMethodD, some OpName.FPushClsMethod,
           some OpName.FPushClsMethodF, some OpName.FPushClsMethodD, some OpName.FPushCtor,
           some OpName.FPushCtorD, some OpName.FPushCufIter, some OpName.FPushCuf,
           some OpName.FPushCufF, some OpName.FPushCufSafe])
      ∧ ([OpFPushFunc, OpFPushFuncD, OpFPushFuncU, OpFPushObjMethod, OpFPushObjMethodD,
        OpFPushClsMethod, OpFPushClsMethodF, OpFPushClsMethodD, OpFPushCtor, OpFPushCtorD,
        OpFPushCufIter, OpFPushCuf, OpFPushCufF, OpFPushCufSafe]).Nodup
      ∧ OpFPushFunc.val = 151 ∧ OpFPushCufSafe.val = 164 := by
  revert op
  decide

/-- C12, as stated, fails: `FPassVNop` lies in the ordinal range `FPassC..FPassM` and
`isFPassStar` is false for it. -/
theorem isFPassStar_range_counterexample :
    isFPassStar OpFPassVNop = false
      ∧ OpFPassC.val ≤ OpFPassVNop.val ∧ OpFPassVNop.val ≤ OpFPassM.val := by
  decide

/-- C12, amended: every opcode for which `isFPassStar` holds lies in the ordinal range
`FPassC..FPassM` (165 to 175), and for every opcode other than `FPassVNop` the predicate holds
iff the opcode lies in that range. -/
theorem isFPassStar_iff (op : Op) :
    (isFPassStar op = true → OpFPassC.val ≤ op.val ∧ op.val ≤ OpFPassM.val)
      ∧ (op ≠ OpFPassVNop →
          (isFPassStar op = true ↔ OpFPassC.val ≤ op.val ∧ op.val ≤ OpFPassM.val))
      ∧ OpFPassC.val = 165 ∧ OpFPassM.val = 175 := by
  revert op
  decide

/-- The opcode `FPassR`, in the range, satisfies `isFPassStar`. -/
theorem isFPassStar_iff_witness :
    OpFPassR ≠ OpFPassVNop ∧ OpFPassC.val ≤ OpFPassR.val ∧ OpFPassR.val ≤ OpFPassM.val
      ∧ isFPassStar OpFPassR = true :=
  ⟨by decide, by decide, by decide,
   ((isFPassStar_iff OpFPassR).2.1 (by decide)).2 ⟨by decide, by decide⟩⟩

/-- C13, as stated, fails: the input descriptor of `NewStructArray` is the count marker `SMANY`
and the instruction carries no `IVA` immediate; its only immediate is the vector `VSA`. -/
theorem many_inputs_counterexample :
    opcodeRow OpNewStructArray
        = some (O .NewStructArray (.ONE .VSA) .SMANY (.ONE .CV) NF)
      ∧ ArgType.IVA ∉ (Imms.ONE ArgType.VSA).toList := by
  decide

/-- C13, amended: every opcode of `OPCODES` whose input descriptor is `CMANY`, `FMANY` or
`CVUMANY` carries a variable-width integer (`IVA`) immediate, as its first immediate; the only
opcode with the input descriptor `SMANY` is `NewStructArray`, which carries no `IVA` immediate
but the single vector immediate `VSA`. -/
theorem many_inputs_iva (row : OpcodeRow) (h : row ∈ OPCODES) :
    (row.inp ∈ [Inputs.CMANY, Inputs.FMANY, Inputs.CVUMANY] →
        row.imm.toList.head? = some ArgType.IVA ∧ ArgType.IVA ∈ row.imm.toList)
      ∧ (row.inp = Inputs.SMANY →
        row.name = OpName.NewStructArray ∧ row.imm.toList = [ArgType.VSA]) := by
  have key : ∀ r ∈ OPCODES,
      (r.inp ∈ [Inputs.CMANY, Inputs.FMANY, Inputs.CVUMANY] →
          r.imm.toList.head? = some ArgType.IVA ∧ ArgType.IVA ∈ r.imm.toList)
        ∧ (r.inp = Inputs.SMANY →
          r.name = OpName.NewStructArray ∧ r.imm.toList = [ArgType.VSA]) := by
    decide
  exact key row h

/-- The row of `FCallBuiltin`, with input descriptor `CVUMANY`, starts with an `IVA`
immediate. -/
theorem many_inputs_iva_witness :
    O .FCallBuiltin (.THREE .IVA .IVA .SA) .CVUMANY (.ONE .RV) NF ∈ OPCODES
      ∧ (Imms.THREE ArgType.IVA ArgType.IVA ArgType.SA).toList.head? = some ArgType.IVA :=
  ⟨by decide,
   ((many_inputs_iva (O .FCallBuiltin (.THREE .IVA .IVA .SA) .CVUMANY (.ONE .RV) NF)
      (by decide)).1 (by decide)).1⟩

/-- C14: an opcode of `OPCODES` has a member-vector (`MA`) immediate iff its input descriptor is
one of `MMANY`, `C_MMANY`, `V_MMANY`, `R_MMANY`, and then it has exactly one `MA` immediate. -/
theorem member_vector_iff (row : OpcodeRow) (h : row ∈ OPCODES) :
    (ArgType.MA ∈ row.imm.toList ↔
        row.inp ∈ [Inputs.MMANY, Inputs.C_MMANY, Inputs.V_MMANY, Inputs.R_MMANY])
      ∧ (ArgType.MA ∈ row.imm.toList → row.imm.toList.count ArgType.MA = 1) := by
  have key : ∀ r ∈ OPCODES,
      (ArgType.MA ∈ r.imm.toList ↔
          r.inp ∈ [Inputs.MMANY, Inputs.C_MMANY, Inputs.V_MMANY, Inputs.R_MMANY])
        ∧ (ArgType.MA ∈ r.imm.toList → r.imm.toList.count ArgType.MA = 1) := by
    decide
  exact key row h

/-- The row of `SetOpM` has the input descriptor `C_MMANY` and exactly one `MA` immediate, its
second. -/
theorem member_vector_iff_witness :
    O .SetOpM (.TWO .OA .MA) .C_MMANY (.ONE .CV) NF ∈ OPCODES
      ∧ ArgType.MA ∈ (Imms.TWO ArgType.OA ArgType.MA).toList
      ∧ (Imms.TWO ArgType.OA ArgType.MA).toList.count ArgType.MA = 1 :=
  ⟨by decide, by decide,
   (member_vector_iff (O .SetOpM (.TWO .OA .MA) .C_MMANY (.ONE .CV) NF) (by decide)).2
     (by decide)⟩

/-- C15: every row of `OPCODES` lists at most 4 immediates, and 4 is reached (by `IterInitK`
among others). -/
theorem immediates_le_four (row : OpcodeRow) (h : row ∈ OPCODES) :
    row.imm.toList.length ≤ 4
      ∧ ∃ r ∈ OPCODES, r.name = OpName.IterInitK ∧ r.imm.toList.length = 4 := by
  have key : ∀ r ∈ OPCODES, r.imm.toList.length ≤ 4 := by
    decide
  refine ⟨key row h, O .IterInitK (.FOUR .IA .BA .LA .LA) (.ONE .CV) .NOV CF, ?_, rfl, rfl⟩
  decide

/-- The row of `QueryML` lists four immediates. -/
theorem immediates_le_four_witness :
    O .QueryML (.FOUR .IVA .OA .OA .LA) .MFINAL (.ONE .CV) NF ∈ OPCODES
      ∧ (Imms.FOUR ArgType.IVA ArgType.OA ArgType.OA ArgType.LA).toList.length ≤ 4 :=
  ⟨by decide,
   (immediates_le_four (O .QueryML (.FOUR .IVA .OA .OA .LA) .MFINAL (.ONE .CV) NF)
      (by decide)).1⟩

/-! ## Properties of the location codes and of the enum-indexed tables -/

/-- C16: for every valid `LocationCode` (`LL..LR`), `numLocationCodeImms` returns 0 or 1 and
`numLocationCodeStackVals` returns 0, 1 or 2; hence `MInstrLocation::hasImm` returns a value, its
assertion `count == 0 || count == 1` holding, and that value is true exactly for `LL`, `LGL`,
`LNL` and `LSL`. -/
theorem locationCode_counts (lc : LocationCode) (imm : Int)
    (h : lc ≠ LocationCode.InvalidLocationCode) :
    (numLocationCodeImms lc = .ok 0 ∨ numLocationCodeImms lc = .ok 1)
      ∧ (numLocationCodeStackVals lc = .ok 0 ∨ numLocationCodeStackVals lc = .ok 1
          ∨ numLocationCodeStackVals lc = .ok 2)
      ∧ (MInstrLocation.mk lc imm).hasImm
          = .ok (decide (lc ∈ [LocationCode.LL, LocationCode.LGL, LocationCode.LNL,
              LocationCode.LSL])) := by
  cases lc <;> first
    | exact absurd rfl h
    | simp [numLocationCodeImms, numLocationCodeStackVals, MInstrLocation.hasImm]

/-- The code `LSC` takes no immediate and two stack values; `LSL` has an immediate. -/
theorem locationCode_counts_witness :
    numLocationCodeImms LocationCode.LSC = .ok 0
      ∧ numLocationCodeStackVals LocationCode.LSC = .ok 2
      ∧ (MInstrLocation.mk LocationCode.LSL 7).hasImm = .ok true :=
  ⟨rfl, rfl, (locationCode_counts LocationCode.LSL 7 (by decide)).2.2⟩

theorem numLocationCode_enumerators (lc : LocationCode) :
    (numLocationCodeImms lc = .error Abort.not_reached
        ↔ lc = LocationCode.InvalidLocationCode)
      ∧ (numLocationCodeStackVals lc = .error Abort.not_reached
        ↔ lc = LocationCode.InvalidLocationCode)
      ∧ (lc ≠ LocationCode.InvalidLocationCode →
          ∃ n m, numLocationCodeImms lc = .ok n ∧ numLocationCodeStackVals lc = .ok m) := by
  cases lc <;> simp [numLocationCodeImms, numLocationCodeStackVals]

theorem numLocationCode_toByte (code : LocationCode) :
    numLocationCodeImmsOfByte code.toByte = numLocationCodeImms code
      ∧ numLocationCodeStackValsOfByte code.toByte = numLocationCodeStackVals code
      ∧ code.toByte.val = code.toCtorIdx := by
  cases code <;> exact ⟨rfl, rfl, rfl⟩

theorem locationCode_of_lt (lc : Byte) (h : lc.val < 10) :
    ∃ code : LocationCode, code ≠ LocationCode.InvalidLocationCode ∧ code.toByte = lc := by
  obtain ⟨n, hn⟩ := lc
  simp only at h
  interval_cases n
  · exact ⟨LocationCode.LL, by decide, rfl⟩
  · exact ⟨LocationCode.LC, by decide, rfl⟩
  · exact ⟨LocationCode.LH, by decide, rfl⟩
  · exact ⟨LocationCode.LGL, by decide, rfl⟩
  · exact ⟨LocationCode.LGC, by decide, rfl⟩
  · exact ⟨LocationCode.LNL, by decide, rfl⟩
  · exact ⟨LocationCode.LNC, by decide, rfl⟩
  · exact ⟨LocationCode.LSL, by decide, rfl⟩
  · exact ⟨LocationCode.LSC, by decide, rfl⟩
  · exact ⟨LocationCode.LR, by decide, rfl⟩

theorem numLocationCode_of_ge (lc : Byte) (h : 10 ≤ lc.val) :
    numLocationCodeImmsOfByte lc = .error Abort.not_reached
      ∧ numLocationCodeStackValsOfByte lc = .error Abort.not_reached := by
  have hne : ∀ code : LocationCode, code ≠ LocationCode.InvalidLocationCode →
      lc ≠ code.toByte := by
    intro code hc heq
    have hval : lc.val = code.toCtorIdx := by
      rw [heq]
      exact (numLocationCode_toByte code).2.2
    cases code <;> first
      | exact absurd rfl hc
      | (simp only [LocationCode.toCtorIdx] at hval; omega)
  have hLL := hne LocationCode.LL (by decide)
  have hLC := hne LocationCode.LC (by decide)
  have hLH := hne LocationCode.LH (by decide)
  have hLGL := hne LocationCode.LGL (by decide)
  have hLGC := hne LocationCode.LGC (by decide)
  have hLNL := hne LocationCode.LNL (by decide)
  have hLNC := hne LocationCode.LNC (by decide)
  have hLSL := hne LocationCode.LSL (by decide)
  have hLSC := hne LocationCode.LSC (by decide)
  have hLR := hne LocationCode.LR (by decide)
  constructor
  · unfold numLocationCodeImmsOfByte
    simp [hLL, hLC, hLH, hLGL, hLGC, hLNL, hLNC, hLSL, hLSC, hLR]
  · unfold numLocationCodeStackValsOfByte
    simp [hLL, hLC, hLH, hLGL, hLGC, hLNL, hLNC, hLSL, hLSC, hLR]

/-- C17, as stated, fails: the value 11, which is not `InvalidLocationCode` (10) and which
`ImmVector::locationCode()` builds from the stream byte 11, sends both functions to
`not_reached()` as well. -/
theorem numLocationCode_not_reached_counterexample :
    numLocationCodeImmsOfByte 11 = .error Abort.not_reached
      ∧ numLocationCodeStackValsOfByte 11 = .error Abort.not_reached
      ∧ (11 : Byte) ≠ LocationCode.InvalidLocationCode.toByte
      ∧ LocationCode.InvalidLocationCode.toByte = 10 :=
  ⟨rfl, rfl, by decide, by decide⟩

/-- C17, amended: `numLocationCodeImms` and `numLocationCodeStackVals` return a value for each of
the ten valid location codes, the values 0 to 9 of `LL..LR`, and end in `not_reached()`,
returning nothing, for every other value of the type: for `InvalidLocationCode`, of value 10,
and for every value that is no enumerator.  On the enumerators they are the two `switch`
functions case for case. -/
theorem numLocationCode_not_reached (lc : Byte) :
    (numLocationCodeImmsOfByte lc = .error Abort.not_reached ↔ 10 ≤ lc.val)
      ∧ (numLocationCodeStackValsOfByte lc = .error Abort.not_reached ↔ 10 ≤ lc.val)
      ∧ (lc.val < 10 →
          ∃ n m, numLocationCodeImmsOfByte lc = .ok n
            ∧ numLocationCodeStackValsOfByte lc = .ok m)
      ∧ (lc.val < 10 ↔
          lc ∈ [LocationCode.LL.toByte, LocationCode.LC.toByte, LocationCode.LH.toByte,
            LocationCode.LGL.toByte, LocationCode.LGC.toByte, LocationCode.LNL.toByte,
            LocationCode.LNC.toByte, LocationCode.LSL.toByte, LocationCode.LSC.toByte,
            LocationCode.LR.toByte])
      ∧ LocationCode.InvalidLocationCode.toByte.val = 10
      ∧ (∀ code : LocationCode,
          numLocationCodeImmsOfByte code.toByte = numLocationCodeImms code
            ∧ numLocationCodeStackValsOfByte code.toByte = numLocationCodeStackVals code) := by
  have hmem : lc.val < 10 ↔
      lc ∈ [LocationCode.LL.toByte, LocationCode.LC.toByte, LocationCode.LH.toByte,
        LocationCode.LGL.toByte, LocationCode.LGC.toByte, LocationCode.LNL.toByte,
        LocationCode.LNC.toByte, LocationCode.LSL.toByte, LocationCode.LSC.toByte,
        LocationCode.LR.toByte] := by
    revert lc
    decide
  have hvalid : lc.val < 10 →
      ∃ n m, numLocationCodeImmsOfByte lc = .ok n
        ∧ numLocationCodeStackValsOfByte lc = .ok m := by
    intro hlt
    obtain ⟨code, hc, hb⟩ := locationCode_of_lt lc hlt
    obtain ⟨n, m, hn, hm⟩ := (numLocationCode_enumerators code).2.2 hc
    refine ⟨n, m, ?_, ?_⟩
    · rw [← hb, (numLocationCode_toByte code).1, hn]
    · rw [← hb, (numLocationCode_toByte code).2.1, hm]
  refine ⟨?_, ?_, hvalid, hmem, rfl,
    fun code => ⟨(numLocationCode_toByte code).1, (numLocationCode_toByte code).2.1⟩⟩
  · constructor
    · intro herr
      by_contra hlt
      obtain ⟨n, m, hn, _⟩ := hvalid (by omega)
      rw [hn] at herr
      cases herr
    · intro hge
      exact (numLocationCode_of_ge lc hge).1
  · constructor
    · intro herr
      by_contra hlt
      obtain ⟨n, m, _, hm⟩ := hvalid (by omega)
      rw [hm] at herr
      cases herr
    · intro hge
      exact (numLocationCode_of_ge lc hge).2

/-- The value 9, the code `LR`, has a value in both functions; the byte 200 has none. -/
theorem numLocationCode_not_reached_witness :
    (∃ n m, numLocationCodeImmsOfByte 9 = .ok n ∧ numLocationCodeStackValsOfByte 9 = .ok m)
      ∧ numLocationCodeImmsOfByte 200 = .error Abort.not_reached :=
  ⟨(numLocationCode_not_reached 9).2.2.1 (by decide),
   (numLocationCode_not_reached 200).1.mpr (by decide)⟩

theorem instrFlags_bounds (op : Op) :
    ((instrFlags op).isSome = true ↔ op.val < Op_count)
      ∧ (isValidOpcode op = true → (instrFlags op).isSome = true) := by
  revert op
  decide

/-- C18: every enum-indexed table has one row per enumerator.  `instrFlagsData` has exactly
`Op_count = ordinal(HighInvalid) + 1 = 255` entries, the `i`-th coming from the row of the
enumerator of ordinal `i`, so `instrFlags` is an in-bounds lookup exactly for the opcode values
below `Op_count`, among them every valid opcode; `m_baseOps` has exactly `NumLocationCodes = 10`
entries, the valid location codes are exactly those of ordinal below `NumLocationCodes`, and
`getAttr` finds an entry for each; the same holds of `m_intermediateOps`, `NumMemberCodes = 9` and
the valid member codes. -/
theorem tables_one_row_per_enumerator (op : Op) (info : MInstrInfo) (lc : LocationCode)
    (mc : MemberCode) :
    instrFlagsData.length = Op_count ∧ Op_count = OpHighInvalid.val + 1 ∧ Op_count = 255
      ∧ OPCODES.map (fun row => row.name.toCtorIdx) = List.range Op_count
      ∧ ((instrFlags op).isSome = true ↔ op.val < Op_count)
      ∧ (isValidOpcode op = true → (instrFlags op).isSome = true)
      ∧ info.m_baseOps.val.length = NumLocationCodes ∧ NumLocationCodes = 10
      ∧ (lc ≠ LocationCode.InvalidLocationCode ↔ lc.toCtorIdx < NumLocationCodes)
      ∧ (lc ≠ LocationCode.InvalidLocationCode → ∃ a, info.getAttr lc = .ok a)
      ∧ info.m_intermediateOps.val.length = NumMemberCodes ∧ NumMemberCodes = 9
      ∧ (mc ≠ MemberCode.InvalidMemberCode ↔ mc.toCtorIdx < NumMemberCodes)
      ∧ (mc ≠ MemberCode.InvalidMemberCode → ∃ a, info.getAttrMember mc = .ok a) := by
  have hloc : lc ≠ LocationCode.InvalidLocationCode ↔ lc.toCtorIdx < NumLocationCodes := by
    cases lc <;> decide
  have hmem : mc ≠ MemberCode.InvalidMemberCode ↔ mc.toCtorIdx < NumMemberCodes := by
    cases mc <;> decide
  refine ⟨by decide, rfl, by decide, by decide, (instrFlags_bounds op).1,
    (instrFlags_bounds op).2, info.m_baseOps.property, rfl, hloc, ?_,
    info.m_intermediateOps.property, rfl, hmem, ?_⟩
  · intro hv
    unfold MInstrInfo.getAttr
    rw [dif_pos (hloc.mp hv)]
    exact ⟨_, rfl⟩
  · intro hv
    unfold MInstrInfo.getAttrMember
    rw [dif_pos (hmem.mp hv)]
    exact ⟨_, rfl⟩

/-- The last valid opcode, location code and member code are found in their tables. -/
theorem tables_one_row_per_enumerator_witness :
    (instrFlags 253).isSome = true
      ∧ (∃ a, (MInstrInfo.mk MInstr.MI_IssetM ⟨List.replicate 10 0, rfl⟩
          ⟨List.replicate 9 0, rfl⟩ 0 false true "IssetM").getAttr LocationCode.LR = .ok a)
      ∧ (∃ a, (MInstrInfo.mk MInstr.MI_IssetM ⟨List.replicate 10 0, rfl⟩
          ⟨List.replicate 9 0, rfl⟩ 0 false true "IssetM").getAttrMember MemberCode.MW
            = .ok a) :=
  ⟨(tables_one_row_per_enumerator 253 (MInstrInfo.mk MInstr.MI_IssetM ⟨List.replicate 10 0, rfl⟩
      ⟨List.replicate 9 0, rfl⟩ 0 false true "IssetM") LocationCode.LR MemberCode.MW).2.2.2.2.2.1
      (by decide),
   (tables_one_row_per_enumerator 253 (MInstrInfo.mk MInstr.MI_IssetM ⟨List.replicate 10 0, rfl⟩
      ⟨List.replicate 9 0, rfl⟩ 0 false true "IssetM") LocationCode.LR
      MemberCode.MW).2.2.2.2.2.2.2.2.2.1 (by decide),
   (tables_one_row_per_enumerator 253 (MInstrInfo.mk MInstr.MI_IssetM ⟨List.replicate 10 0, rfl⟩
      ⟨List.replicate 9 0, rfl⟩ 0 false true "IssetM") LocationCode.LR
      MemberCode.MW).2.2.2.2.2.2.2.2.2.2.2.2.2 (by decide)⟩

/-! ## Properties of immediate vectors and switch tables -/

theorem loadU32_isSome (buf : List Byte) (p : Nat) (h : p + 4 ≤ buf.length) :
    ∃ w, loadU32 buf p = some w := by
  have h0 : p < buf.length := by omega
  have h1 : p + 1 < buf.length := by omega
  have h2 : p + 2 < buf.length := by omega
  have h3 : p + 3 < buf.length := by omega
  unfold loadU32
  rw [List.getElem?_eq_getElem h0, List.getElem?_eq_getElem h1, List.getElem?_eq_getElem h2,
    List.getElem?_eq_getElem h3]
  exact ⟨_, rfl⟩

/-- C19: `ImmVector::createFromStream` on a byte pointer yields a view whose `size()` is the
`int32_t` stored at bytes 0..3, whose `numStackValues()` is the `int32_t` stored at bytes 4..7
and whose `vec()` points 8 bytes past the stream start; on an `int32_t` pointer it yields a view
whose `size()` is the first `int32_t`, whose `vec()` points 4 bytes past the stream start and
whose `numStackValues()` is 0. -/
theorem createFromStream_view (buf : List Byte) (p : Nat) (a : Nat)
    (ha : loadU32 buf p = some a) :
    (∀ b, loadU32 buf (p + 4) = some b →
        ∃ v, ImmVector.createFromStream buf p = some v
          ∧ v.size = toInt32 a ∧ v.numStackValues = toInt32 b ∧ v.vec = p + 8)
      ∧ (∃ v, ImmVector.createFromStreamInt32 buf p = some v
        ∧ v.size = toInt32 a ∧ v.vec = p + 4 ∧ v.numStackValues = 0) := by
  constructor
  · intro b hb
    refine ⟨⟨toInt32 a, toInt32 b, p + 4 + 4⟩, ?_, rfl, rfl, rfl⟩
    unfold ImmVector.createFromStream
    rw [ha, hb]
  · refine ⟨⟨toInt32 a, 0, p + 4⟩, ?_, rfl, rfl, rfl⟩
    unfold ImmVector.createFromStreamInt32
    rw [ha]

/-- A member vector header with size 3 and stack count 1, read both ways. -/
theorem createFromStream_view_witness :
    ImmVector.createFromStream [9, 3, 0, 0, 0, 1, 0, 0, 0, 7, 7, 7] 1 = some ⟨3, 1, 9⟩
      ∧ ImmVector.createFromStreamInt32 [9, 3, 0, 0, 0, 1, 0, 0, 0, 7, 7, 7] 1
          = some ⟨3, 0, 5⟩ := by
  obtain ⟨hbyte, ⟨w, hw, h4, h5, h6⟩⟩ :=
    createFromStream_view [9, 3, 0, 0, 0, 1, 0, 0, 0, 7, 7, 7] 1 3 (by decide)
  obtain ⟨v, hv, h1, h2, h3⟩ := hbyte 1 (by decide)
  constructor
  · rw [hv]
    cases v
    simp only [ImmVector.size, ImmVector.numStackValues, ImmVector.vec] at h1 h2 h3
    subst h1 h2 h3
    decide
  · rw [hw]
    cases w
    simp only [ImmVector.size, ImmVector.numStackValues, ImmVector.vec] at h4 h5 h6
    subst h4 h5 h6
    decide

theorem readDataInt32_isSome (buf : List Byte) (p : Nat) (h : p + 4 ≤ buf.length) :
    ∃ t, readDataInt32 buf p = some (t, p + 4) := by
  obtain ⟨w, hw⟩ := loadU32_isSome buf p h
  unfold readDataInt32
  rw [hw]
  exact ⟨_, rfl⟩

theorem foreachSwitchTargetLoop_offsets (buf : List Byte) (count : Nat) :
    ∀ cur : Nat, cur + 4 * count ≤ buf.length →
      ∃ targets, foreachSwitchTargetLoop buf false count cur = some targets
        ∧ targets.length = count
        ∧ ∀ i, i < count →
            targets[i]? = (readDataOffset buf (cur + 4 * i)).map Prod.fst := by
  induction count with
  | zero =>
      intro cur _
      exact ⟨[], rfl, rfl, fun i hi => absurd hi (Nat.not_lt_zero i)⟩
  | succ k ih =>
      intro cur h
      obtain ⟨t, ht⟩ := readDataInt32_isSome buf cur (by omega)
      obtain ⟨ts, hts, hlen, hget⟩ := ih (cur + 4) (by omega)
      refine ⟨t :: ts, ?_, by simp [hlen], ?_⟩
      · simp [foreachSwitchTargetLoop, readDataOffset, ht, hts]
      · intro i hi
        cases i with
        | zero => simp [readDataOffset, ht]
        | succ j =>
            have hj := hget j (by omega)
            have e : cur + 4 * (j + 1) = cur + 4 + 4 * j := by omega
            rw [e]
            simpa using hj

theorem foreachSwitchTargetLoop_pairs (buf : List Byte) (count : Nat) :
    ∀ cur : Nat, cur + 8 * count ≤ buf.length →
      ∃ targets, foreachSwitchTargetLoop buf true count cur = some targets
        ∧ targets.length = count
        ∧ ∀ i, i < count →
            targets[i]? = (readDataOffset buf (cur + 8 * i + 4)).map Prod.fst := by
  induction count with
  | zero =>
      intro cur _
      exact ⟨[], rfl, rfl, fun i hi => absurd hi (Nat.not_lt_zero i)⟩
  | succ k ih =>
      intro cur h
      obtain ⟨s, hs⟩ := readDataInt32_isSome buf cur (by omega)
      obtain ⟨t, ht⟩ := readDataInt32_isSome buf (cur + 4) (by omega)
      obtain ⟨ts, hts, hlen, hget⟩ := ih (cur + 4 + 4) (by omega)
      refine ⟨t :: ts, ?_, by simp [hlen], ?_⟩
      · simp [foreachSwitchTargetLoop, readDataOffset, readDataId, hs, ht, hts]
      · intro i hi
        cases i with
        | zero => simp [readDataOffset, ht]
        | succ j =>
            have hj := hget j (by omega)
            have e : cur + 8 * (j + 1) + 4 = cur + 4 + 4 + 8 * j + 4 := by omega
            rw [e]
            simpa using hj

theorem isSwitch_cases (opcode : Op) :
    isSwitch opcode = true →
      (opcode = OpSwitch ∧ (opcode == OpSSwitch) = false)
        ∨ (opcode = OpSSwitch ∧ (opcode == OpSSwitch) = true) := by
  revert opcode
  decide

/-- C20: for an instruction at cursor `op` whose opcode satisfies `isSwitch` and whose vector
header holds the count `n ≥ 0`, with the `n` entries inside the buffer, `foreachSwitchTarget`
calls `func` exactly `n` times, in stream order: for `Switch` the `i`-th call receives the `i`-th
4-byte `Offset` after the 4-byte count, for `SSwitch` it receives the `dest` field of the `i`-th
8-byte (string id, offset) pair, the final default entry included. -/
theorem foreachSwitchTarget_targets (buf : List Byte) (op : Nat) (opcode : Op) (w n : Nat)
    (hop : buf[op]? = some opcode) (hsw : isSwitch opcode = true)
    (hsize : loadU32 buf (op + 1) = some w) (hn : toInt32 w = (n : Int))
    (hlen : op + 5 + (if opcode = OpSSwitch then 8 else 4) * n ≤ buf.length) :
    ∃ targets, foreachSwitchTarget buf op = some targets
      ∧ targets.length = n
      ∧ (opcode = OpSwitch → ∀ i, i < n →
          targets[i]? = (readDataOffset buf (op + 5 + 4 * i)).map Prod.fst)
      ∧ (opcode = OpSSwitch → ∀ i, i < n →
          targets[i]? = (readDataOffset buf (op + 5 + 8 * i + 4)).map Prod.fst) := by
  have hne : OpSwitch ≠ OpSSwitch := by decide
  have hstart : foreachSwitchTarget buf op
      = foreachSwitchTargetLoop buf (opcode == OpSSwitch) n (op + 1 + 4) := by
    simp [foreachSwitchTarget, readDataOp, readDataInt32, hop, hsw, hsize, hn]
  rcases isSwitch_cases opcode hsw with ⟨he, hb⟩ | ⟨he, hb⟩
  · have hlen2 : op + 1 + 4 + 4 * n ≤ buf.length := by
      rw [he, if_neg hne] at hlen
      omega
    obtain ⟨ts, hts, hl, hget⟩ := foreachSwitchTargetLoop_offsets buf n (op + 1 + 4) hlen2
    refine ⟨ts, ?_, hl, ?_, ?_⟩
    · rw [hstart, hb, hts]
    · intro _ i hi
      exact hget i hi
    · intro h2
      rw [he] at h2
      exact absurd h2 hne
  · have hlen2 : op + 1 + 4 + 8 * n ≤ buf.length := by
      rw [he, if_pos rfl] at hlen
      omega
    obtain ⟨ts, hts, hl, hget⟩ := foreachSwitchTargetLoop_pairs buf n (op + 1 + 4) hlen2
    refine ⟨ts, ?_, hl, ?_, ?_⟩
    · rw [hstart, hb, hts]
    · intro h2
      rw [he] at h2
      exact absurd h2.symm hne
    · intro _ i hi
      exact hget i hi

/-- An `SSwitch` with two (string id, offset) pairs, the second being the default: `func` is
called with the offsets 10 and 20. -/
theorem foreachSwitchTarget_targets_witness :
    foreachSwitchTarget
        [88, 2, 0, 0, 0, 5, 0, 0, 0, 10, 0, 0, 0, 255, 255, 255, 255, 20, 0, 0, 0] 0
        = some [10, 20]
      ∧ ∃ targets, foreachSwitchTarget
          [88, 2, 0, 0, 0, 5, 0, 0, 0, 10, 0, 0, 0, 255, 255, 255, 255, 20, 0, 0, 0] 0
          = some targets
        ∧ targets.length = 2
        ∧ (OpSSwitch = OpSwitch → ∀ i, i < 2 →
          targets[i]? = (readDataOffset
            [88, 2, 0, 0, 0, 5, 0, 0, 0, 10, 0, 0, 0, 255, 255, 255, 255, 20, 0, 0, 0]
            (0 + 5 + 4 * i)).map Prod.fst)
        ∧ (OpSSwitch = OpSSwitch → ∀ i, i < 2 →
          targets[i]? = (readDataOffset
            [88, 2, 0, 0, 0, 5, 0, 0, 0, 10, 0, 0, 0, 255, 255, 255, 255, 20, 0, 0, 0]
            (0 + 5 + 8 * i + 4)).map Prod.fst) :=
  ⟨by decide,
   foreachSwitchTarget_targets
     [88, 2, 0, 0, 0, 5, 0, 0, 0, 10, 0, 0, 0, 255, 255, 255, 255, 20, 0, 0, 0] 0 OpSSwitch 2 2
     (by decide) (by decide) (by decide) (by decide) (by decide)⟩

theorem foreachSwitchStringLoop_ids (buf : List Byte) (count : Nat) :
    ∀ cur : Nat, cur + 8 * count ≤ buf.length →
      ∃ strs, foreachSwitchStringLoop buf count cur = some strs
        ∧ strs.length = count
        ∧ ∀ i, i < count → strs[i]? = (readDataId buf (cur + 8 * i)).map Prod.fst := by
  induction count with
  | zero =>
      intro cur _
      exact ⟨[], rfl, rfl, fun i hi => absurd hi (Nat.not_lt_zero i)⟩
  | succ k ih =>
      intro cur h
      obtain ⟨s, hs⟩ := readDataInt32_isSome buf cur (by omega)
      obtain ⟨t, ht⟩ := readDataInt32_isSome buf (cur + 4) (by omega)
      obtain ⟨ts, hts, hlen, hget⟩ := ih (cur + 4 + 4) (by omega)
      refine ⟨s :: ts, ?_, by simp [hlen], ?_⟩
      · simp [foreachSwitchStringLoop, readDataOffset, readDataId, hs, ht, hts]
      · intro i hi
        cases i with
        | zero => simp [readDataId, hs]
        | succ j =>
            have hj := hget j (by omega)
            have e : cur + 8 * (j + 1) = cur + 4 + 4 + 8 * j := by omega
            rw [e]
            simpa using hj

theorem toInt32_toUInt32_pred (w n : Nat) (hn : toInt32 w = (n : Int)) (h1 : 1 ≤ n) :
    (toInt32 (toUInt32 ((n : Int) - 1))).toNat = n - 1 := by
  have hlt : n < 2147483648 := by
    unfold toInt32 at hn
    split at hn <;> omega
  have hu : toUInt32 ((n : Int) - 1) = n - 1 := by
    unfold toUInt32
    omega
  rw [hu, toInt32_of_lt (n - 1) (by omega)]
  omega

/-- C21: for an `SSwitch` instruction at cursor `op` whose vector holds `n ≥ 1` (string id,
offset) pairs, all inside the buffer, `foreachSwitchString` calls `func` exactly `n - 1` times,
in order, with the string ids of the pairs `0..n-2`; the last pair, the default, is not passed
to `func`, so it visits exactly one item fewer than `foreachSwitchTarget` does on the same
instruction. -/
theorem foreachSwitchString_ids (buf : List Byte) (op : Nat) (w n : Nat)
    (hop : buf[op]? = some OpSSwitch)
    (hsize : loadU32 buf (op + 1) = some w) (hn : toInt32 w = (n : Int)) (h1 : 1 ≤ n)
    (hlen : op + 5 + 8 * n ≤ buf.length) :
    ∃ strs targets, foreachSwitchString buf op = some strs
      ∧ strs.length = n - 1
      ∧ (∀ i, i < n - 1 → strs[i]? = (readDataId buf (op + 5 + 8 * i)).map Prod.fst)
      ∧ foreachSwitchTarget buf op = some targets
      ∧ targets.length = strs.length + 1 := by
  have hstart : foreachSwitchString buf op = foreachSwitchStringLoop buf (n - 1) (op + 1 + 4) := by
    simp [foreachSwitchString, readDataOp, readDataInt32, hop, hsize, hn,
      toInt32_toUInt32_pred w n hn h1]
  have hstart2 : foreachSwitchTarget buf op = foreachSwitchTargetLoop buf true n (op + 1 + 4) := by
    have hsw : isSwitch OpSSwitch = true := by decide
    simp [foreachSwitchTarget, readDataOp, readDataInt32, hop, hsize, hn, hsw]
  obtain ⟨strs, hs, hl, hget⟩ := foreachSwitchStringLoop_ids buf (n - 1) (op + 1 + 4) (by omega)
  obtain ⟨ts, hts, htl, _⟩ := foreachSwitchTargetLoop_pairs buf n (op + 1 + 4) (by omega)
  refine ⟨strs, ts, by rw [hstart, hs], hl, ?_, by rw [hstart2, hts], by omega⟩
  intro i hi
  exact hget i hi

/-- An `SSwitch` with two pairs, (string 5, offset 10) and the default (-1, offset 20): `func`
receives the one string id 5, while `foreachSwitchTarget` visits both offsets. -/
theorem foreachSwitchString_ids_witness :
    foreachSwitchString
        [88, 2, 0, 0, 0, 5, 0, 0, 0, 10, 0, 0, 0, 255, 255, 255, 255, 20, 0, 0, 0] 0
        = some [5]
      ∧ ∃ strs targets, foreachSwitchString
          [88, 2, 0, 0, 0, 5, 0, 0, 0, 10, 0, 0, 0, 255, 255, 255, 255, 20, 0, 0, 0] 0
          = some strs
        ∧ strs.length = 2 - 1
        ∧ (∀ i, i < 2 - 1 → strs[i]? = (readDataId
            [88, 2, 0, 0, 0, 5, 0, 0, 0, 10, 0, 0, 0, 255, 255, 255, 255, 20, 0, 0, 0]
            (0 + 5 + 8 * i)).map Prod.fst)
        ∧ foreachSwitchTarget
            [88, 2, 0, 0, 0, 5, 0, 0, 0, 10, 0, 0, 0, 255, 255, 255, 255, 20, 0, 0, 0] 0
            = some targets
        ∧ targets.length = strs.length + 1 :=
  ⟨by decide,
   foreachSwitchString_ids
     [88, 2, 0, 0, 0, 5, 0, 0, 0, 10, 0, 0, 0, 255, 255, 255, 255, 20, 0, 0, 0] 0 2 2
     (by decide) (by decide) (by decide) (by decide) (by decide)⟩

/-! ## Properties of the member instructions and member codes -/

theorem land_land_eq_zero (a m d : Nat) (h : a &&& d = 0) : (a &&& m) &&& d = 0 := by
  rw [Nat.and_assoc, Nat.and_comm m d, ← Nat.and_assoc, h, Nat.zero_and]

/-- C22: in the `MINSTRS` list, whichever way `HHVM_MORE_WARNINGS` is set, the attribute mask of
`Isset` is exactly `MIA_final_get` and does not contain `MIA_define`; hence no mask obtained from
it by intersecting with `MIA_base`, `MIA_intermediate`, `MIA_intermediate_prop`, `MIA_final` or
any other mask contains `MIA_define`.  The same holds of `Empty`. -/
theorem isset_never_defines (moreWarnings : Bool) (row : MInstrRow)
    (hrow : row ∈ MINSTRS moreWarnings)
    (hinstr : row.instr = MInstr.MI_IssetM ∨ row.instr = MInstr.MI_EmptyM) :
    row.attrs = MIA_final_get
      ∧ row.attrs &&& MIA_define = 0
      ∧ (row.attrs &&& MIA_base) &&& MIA_define = 0
      ∧ (row.attrs &&& MIA_intermediate) &&& MIA_define = 0
      ∧ (row.attrs &&& MIA_intermediate_prop) &&& MIA_define = 0
      ∧ (row.attrs &&& MIA_final) &&& MIA_define = 0
      ∧ ∀ mask : MInstrAttr, (row.attrs &&& mask) &&& MIA_define = 0 := by
  have key : ∀ b : Bool, ∀ r ∈ MINSTRS b,
      (r.instr = MInstr.MI_IssetM ∨ r.instr = MInstr.MI_EmptyM) → r.attrs = MIA_final_get := by
    decide
  have hattrs := key moreWarnings row hrow hinstr
  have hdef : row.attrs &&& MIA_define = 0 := by
    rw [hattrs]
    decide
  exact ⟨hattrs, hdef, land_land_eq_zero _ _ _ hdef, land_land_eq_zero _ _ _ hdef,
    land_land_eq_zero _ _ _ hdef, land_land_eq_zero _ _ _ hdef,
    fun mask => land_land_eq_zero _ mask _ hdef⟩

/-- The `Isset` row of `MINSTRS`: its base mask `attrs & MIA_base` has no `MIA_define`. -/
theorem isset_never_defines_witness :
    MII .MI_IssetM MIA_final_get "" "" 0 "NotSuppNewElem" ∈ MINSTRS false
      ∧ (MIA_final_get &&& MIA_base) &&& MIA_define = 0 :=
  ⟨by decide,
   (isset_never_defines false (MII .MI_IssetM MIA_final_get "" "" 0 "NotSuppNewElem")
      (by decide) (Or.inl rfl)).2.2.1⟩

/-- C26: for every valid `MemberCode`, `mcodeStackVals` is 0 or 1, and `mcodeStackVals` plus 1
if `memberCodeHasImm` holds equals 1 when the code is not `MW` and 0 when it is `MW`: a member
step takes its key from exactly one of a stack cell and an immediate, the new-element step from
neither. -/
theorem mcodeStackVals_or_imm (mc : MemberCode) (h : mc ≠ MemberCode.InvalidMemberCode) :
    (mcodeStackVals mc = 0 ∨ mcodeStackVals mc = 1)
      ∧ (mc ≠ MemberCode.MW →
          mcodeStackVals mc + (if memberCodeHasImm mc then 1 else 0) = 1)
      ∧ (mc = MemberCode.MW →
          mcodeStackVals mc + (if memberCodeHasImm mc then 1 else 0) = 0) := by
  cases mc <;> first
    | exact absurd rfl h
    | decide

/-- The code `MPT` takes its key from an immediate, `MEC` from the stack, `MW` from neither. -/
theorem mcodeStackVals_or_imm_witness :
    mcodeStackVals MemberCode.MPT + (if memberCodeHasImm MemberCode.MPT then 1 else 0) = 1
      ∧ mcodeStackVals MemberCode.MEC = 1 ∧ memberCodeHasImm MemberCode.MEC = false
      ∧ mcodeStackVals MemberCode.MW + (if memberCodeHasImm MemberCode.MW then 1 else 0) = 0 :=
  ⟨(mcodeStackVals_or_imm MemberCode.MPT (by decide)).2.1 (by decide), by decide, by decide,
   (mcodeStackVals_or_imm MemberCode.MW (by decide)).2.2 rfl⟩

/-- C28: `memberCodeImmType` returns a value for every `MemberCode`: whenever
`memberCodeHasImm` holds, exactly one of `memberCodeImmIsLoc`, `memberCodeImmIsString` and
`memberCodeImmIsInt` holds, so the trailing `not_reached()` is never reached; the value is `None`
iff `memberCodeHasImm` is false. -/
theorem memberCodeImmType_total (mc : MemberCode) :
    (memberCodeHasImm mc = true →
        (memberCodeImmIsLoc mc = true ∧ memberCodeImmIsString mc = false
            ∧ memberCodeImmIsInt mc = false)
          ∨ (memberCodeImmIsLoc mc = false ∧ memberCodeImmIsString mc = true
            ∧ memberCodeImmIsInt mc = false)
          ∨ (memberCodeImmIsLoc mc = false ∧ memberCodeImmIsString mc = false
            ∧ memberCodeImmIsInt mc = true))
      ∧ (∃ t, memberCodeImmType mc = .ok t)
      ∧ memberCodeImmType mc ≠ .error Abort.not_reached
      ∧ (memberCodeImmType mc = .ok MCodeImm.None ↔ memberCodeHasImm mc = false) := by
  cases mc <;>
    simp [memberCodeImmType, memberCodeHasImm, memberCodeImmIsLoc, memberCodeImmIsString,
      memberCodeImmIsInt]

/-- The code `MQT` has a string immediate and nothing else. -/
theorem memberCodeImmType_total_witness :
    memberCodeImmType MemberCode.MQT = .ok MCodeImm.String
      ∧ ((memberCodeImmIsLoc MemberCode.MQT = true ∧ memberCodeImmIsString MemberCode.MQT = false
            ∧ memberCodeImmIsInt MemberCode.MQT = false)
          ∨ (memberCodeImmIsLoc MemberCode.MQT = false
            ∧ memberCodeImmIsString MemberCode.MQT = true
            ∧ memberCodeImmIsInt MemberCode.MQT = false)
          ∨ (memberCodeImmIsLoc MemberCode.MQT = false
            ∧ memberCodeImmIsString MemberCode.MQT = false
            ∧ memberCodeImmIsInt MemberCode.MQT = true)) :=
  ⟨rfl, (memberCodeImmType_total MemberCode.MQT).1 (by decide)⟩

/-! ## Further properties of the opcode table -/

/-- C25: the `SETOP_OPS` correspondence can be followed in either direction: its fifteen rows
have pairwise distinct `SetOpOp` names and pairwise distinct opcodes, and every opcode it names
is a row of `OPCODES` with no immediates, inputs `TWO(CV,CV)`, output `ONE(CV)` and flags `NF`. -/
theorem SETOP_OPS_binary_ops (setOpOp : String) (bcOp : OpName)
    (h : (setOpOp, bcOp) ∈ SETOP_OPS) :
    SETOP_OPS.length = 15
      ∧ (SETOP_OPS.map Prod.fst).Nodup
      ∧ (SETOP_OPS.map Prod.snd).Nodup
      ∧ (∀ p ∈ SETOP_OPS, ∀ q ∈ SETOP_OPS, (p.1 = q.1 ↔ p.2 = q.2))
      ∧ O bcOp .NA (.TWO .CV .CV) (.ONE .CV) NF ∈ OPCODES
      ∧ opcodeRow (Op.ofName bcOp) = some (O bcOp .NA (.TWO .CV .CV) (.ONE .CV) NF) := by
  have key : ∀ p ∈ SETOP_OPS,
      O p.2 .NA (.TWO .CV .CV) (.ONE .CV) NF ∈ OPCODES
        ∧ opcodeRow (Op.ofName p.2) = some (O p.2 .NA (.TWO .CV .CV) (.ONE .CV) NF) := by
    decide
  exact ⟨by decide, by decide, by decide, by decide, key (setOpOp, bcOp) h⟩

/-- The row `SETOP_OP(ConcatEqual, OpConcat)`: `Concat` is such a binary operator. -/
theorem SETOP_OPS_binary_ops_witness :
    ("ConcatEqual", OpName.Concat) ∈ SETOP_OPS
      ∧ O .Concat .NA (.TWO .CV .CV) (.ONE .CV) NF ∈ OPCODES :=
  ⟨by decide, (SETOP_OPS_binary_ops "ConcatEqual" OpName.Concat (by decide)).2.2.2.2.1⟩

theorem offset_rows (op : Op) :
    (opcodeRow op).map (fun row => decide (ArgType.BA ∈ row.imm.toList
        ∨ ArgType.BLA ∈ row.imm.toList ∨ ArgType.SLA ∈ row.imm.toList)) = some true →
      (opcodeRow op).map (fun row => row.flags &&& CF) = some CF
        ∧ instrFlags op = (opcodeRow op).map (fun row => row.flags)
        ∧ instrIsControlFlow op = some true := by
  revert op
  decide

/-- C29: every opcode whose descriptor contains a bytecode-offset immediate, `BA`, or a target
vector, `BLA` or `SLA`, has the control-flow bit `CF` set in `instrFlags`, so that
`instrIsControlFlow` is true of it. -/
theorem offset_imm_control_flow (op : Op) (row : OpcodeRow) (hrow : opcodeRow op = some row)
    (himm : ArgType.BA ∈ row.imm.toList ∨ ArgType.BLA ∈ row.imm.toList
      ∨ ArgType.SLA ∈ row.imm.toList) :
    instrFlags op = some row.flags ∧ row.flags &&& CF = CF
      ∧ instrIsControlFlow op = some true := by
  have h := offset_rows op
  rw [hrow] at h
  simp only [Option.map_some', Option.some.injEq, decide_eq_true_eq] at h
  obtain ⟨h1, h2, h3⟩ := h himm
  exact ⟨h2, h1, h3⟩

/-- The iterator instruction `IterNextK`, with a `BA` immediate, is flagged `CF`. -/
theorem offset_imm_control_flow_witness :
    opcodeRow (Op.ofName .IterNextK) = some (O .IterNextK (.FOUR .IA .BA .LA .LA) .NOV .NOV CF)
      ∧ instrIsControlFlow (Op.ofName .IterNextK) = some true :=
  ⟨by decide,
   (offset_imm_control_flow (Op.ofName .IterNextK)
      (O .IterNextK (.FOUR .IA .BA .LA .LA) .NOV .NOV CF) (by decide) (by decide)).2.2⟩

theorem terminal_outputs (op : Op) :
    (instrFlags op).map (fun flags => decide (flags &&& TF ≠ 0)) = some true →
      (opcodeRow op).map (fun row => row.out) = some Outputs.NOV := by
  revert op
  decide

/-- C30: every opcode whose flags include the terminal bit `TF` has the empty output descriptor
`NOV`: a terminal instruction pushes no value onto the stack. -/
theorem terminal_no_output (op : Op) (flags : InstrFlags)
    (hf : instrFlags op = some flags) (ht : flags &&& TF ≠ 0) :
    ∃ row, opcodeRow op = some row ∧ row.flags = flags ∧ row.out = Outputs.NOV := by
  have h := terminal_outputs op
  have hrf : instrFlags op = (opcodeRow op).map (fun row => row.flags) := by
    unfold instrFlags opcodeRow instrFlagsData
    rw [List.getElem?_map]
  rw [hf] at h
  simp only [Option.map_some', Option.some.injEq, decide_eq_true_eq] at h
  have hout := h ht
  cases hrow : opcodeRow op with
  | none => rw [hrow] at hout; cases hout
  | some row =>
      rw [hrow] at hout hrf
      rw [hf] at hrf
      simp only [Option.map_some', Option.some.injEq] at hout hrf
      exact ⟨row, rfl, hrf.symm, hout⟩

/-- The terminal `RetC` pops a cell and pushes nothing. -/
theorem terminal_no_output_witness :
    instrFlags OpRetC = some CF_TF ∧ CF_TF &&& TF ≠ 0
      ∧ ∃ row, opcodeRow OpRetC = some row ∧ row.flags = CF_TF ∧ row.out = Outputs.NOV :=
  ⟨by decide, by decide, terminal_no_output OpRetC CF_TF (by decide) (by decide)⟩

/-! ## Properties of the sub-operator names -/

theorem subopEnums_bijective :
    ∀ te ∈ subopEnums,
      (te.2.map Prod.fst).Nodup ∧ (te.2.map Prod.snd).Nodup
        ∧ ∀ p ∈ te.2, subopToName te.2 p.2 = some p.1 ∧ nameToSubop te.2 p.1 = some p.2 := by
  decide

theorem nameToSubop_absent (e : SubopEnum) (name : String) (h : name ∉ e.map Prod.fst) :
    nameToSubop e name = none := by
  unfold nameToSubop
  rw [Option.map_eq_none', List.find?_eq_none]
  intro p hp heq
  apply h
  have : p.1 = name := by simpa using heq
  rw [← this]
  exact List.mem_map_of_mem Prod.fst hp

/-- C23: for each of the thirteen sub-operator enumerations the header declares, the listed names
are pairwise distinct and so are the enumerator values; hence `subopToName` names every
enumerator, `nameToSubop` applied to that name returns the enumerator, and `nameToSubop` returns
the absent result for every string that is not a listed name.  In particular
`nameToSubop<IsTypeOp>("Dbl")` is `IsTypeOp::Dbl`, of value 3, and
`nameToSubop<IsTypeOp>("NotARealOp")` is absent. -/
theorem nameToSubop_subopToName (T : String) (e : SubopEnum) (h : (T, e) ∈ subopEnums) :
    (e.map Prod.fst).Nodup ∧ (e.map Prod.snd).Nodup
      ∧ (∀ p ∈ e, subopToName e p.2 = some p.1
          ∧ (subopToName e p.2).bind (nameToSubop e) = some p.2)
      ∧ (∀ name : String, name ∉ e.map Prod.fst → nameToSubop e name = none)
      ∧ subopEnums.map Prod.fst
          = ["InitPropOp", "IsTypeOp", "FatalOp", "SetOpOp", "IncDecOp", "BareThisOp",
             "SilenceOp", "OODeclExistsOp", "ObjMethodOp", "SwitchKind", "MOpFlags", "QueryMOp",
             "PropElemOp"]
      ∧ nameToSubop (enumClass ISTYPE_OPS) "Dbl" = some 3
      ∧ nameToSubop (enumClass ISTYPE_OPS) "NotARealOp" = none := by
  obtain ⟨hn, hv, hp⟩ := subopEnums_bijective (T, e) h
  refine ⟨hn, hv, ?_, nameToSubop_absent e, by decide, by decide, by decide⟩
  intro p hpe
  obtain ⟨h1, h2⟩ := hp p hpe
  refine ⟨h1, ?_⟩
  rw [h1]
  exact h2

/-- The flag `Reffy` of `MOpFlags`, of value 10, is named and found again by its name; the name
`Dbl` is no `MOpFlags` name. -/
theorem nameToSubop_subopToName_witness :
    ("MOpFlags", M_OP_FLAGS) ∈ subopEnums
      ∧ subopToName M_OP_FLAGS 10 = some "Reffy"
      ∧ (subopToName M_OP_FLAGS 10).bind (nameToSubop M_OP_FLAGS) = some 10
      ∧ nameToSubop M_OP_FLAGS "Dbl" = none :=
  ⟨by decide,
   ((nameToSubop_subopToName "MOpFlags" M_OP_FLAGS (by decide)).2.2.1 ("Reffy", 10)
      (by decide)).1,
   ((nameToSubop_subopToName "MOpFlags" M_OP_FLAGS (by decide)).2.2.1 ("Reffy", 10)
      (by decide)).2,
   (nameToSubop_subopToName "MOpFlags" M_OP_FLAGS (by decide)).2.2.2.1 "Dbl" (by decide)⟩

/-! ## Properties of the fixed-width codec -/

theorem toInt32_toUInt32 (val : Int) (h0 : -2147483648 ≤ val) (h1 : val ≤ 2147483647) :
    toInt32 (toUInt32 val) = val := by
  unfold toInt32 toUInt32
  split <;> omega

theorem toInt64_toUInt64 (val : Int) (h0 : -9223372036854775808 ≤ val)
    (h1 : val ≤ 9223372036854775807) :
    toInt64 (toUInt64 val) = val := by
  unfold toInt64 toUInt64
  split <;> omega

theorem toUInt32_lt (val : Int) : toUInt32 val < 4294967296 := by
  unfold toUInt32
  omega

theorem toUInt64_lt (val : Int) : toUInt64 val < 18446744073709551616 := by
  unfold toUInt64
  omega

theorem storeU32_length (w : Nat) : (storeU32 w).length = 4 := rfl

theorem loadU64_storeU64 (pre rest : List Byte) (w : Nat) (hw : w < 18446744073709551616) :
    loadU64 (pre ++ storeU64 w ++ rest) pre.length = some w := by
  have hlo : loadU32 (pre ++ storeU64 w ++ rest) pre.length = some (w % 4294967296) := by
    have h := loadU32_storeU32 pre (storeU32 (w / 4294967296 % 4294967296) ++ rest)
      (w % 4294967296) (by omega)
    simpa [storeU64, List.append_assoc] using h
  have hhi : loadU32 (pre ++ storeU64 w ++ rest) (pre.length + 4)
      = some (w / 4294967296 % 4294967296) := by
    have h := loadU32_storeU32 (pre ++ storeU32 (w % 4294967296)) rest
      (w / 4294967296 % 4294967296) (by omega)
    simpa [storeU64, List.append_assoc, storeU32_length] using h
  unfold loadU64
  rw [hlo, hhi]
  simp only [Option.some.injEq]
  omega

/-- C24: for every byte vector `vec` and every value `val` of type `int32_t`, respectively
`int64_t`, `encodeToVector(vec, val)` leaves the first `vec.size()` bytes unchanged and appends
exactly `sizeof(T)` bytes, 4 respectively 8, holding `val` in little-endian layout; `readData<T>`
started at the first appended byte returns `val` and advances the cursor by exactly `sizeof(T)`
bytes, whatever is appended to the vector later. -/
theorem readData_encodeToVector (vec rest : List Byte) (val : Int) :
    (-2147483648 ≤ val → val ≤ 2147483647 →
        (encodeToVectorInt32 vec val).take vec.length = vec
          ∧ (encodeToVectorInt32 vec val).length = vec.length + 4
          ∧ (encodeToVectorInt32 vec val).drop vec.length = storeU32 (toUInt32 val)
          ∧ readDataInt32 (encodeToVectorInt32 vec val ++ rest) vec.length
              = some (val, vec.length + 4))
      ∧ (-9223372036854775808 ≤ val → val ≤ 9223372036854775807 →
        (encodeToVectorInt64 vec val).take vec.length = vec
          ∧ (encodeToVectorInt64 vec val).length = vec.length + 8
          ∧ (encodeToVectorInt64 vec val).drop vec.length = storeU64 (toUInt64 val)
          ∧ readDataInt64 (encodeToVectorInt64 vec val ++ rest) vec.length
              = some (val, vec.length + 8)) := by
  constructor
  · intro h0 h1
    refine ⟨List.take_left _ _, by simp [encodeToVectorInt32, storeU32], List.drop_left _ _, ?_⟩
    unfold readDataInt32 encodeToVectorInt32
    rw [loadU32_storeU32 vec rest _ (toUInt32_lt val)]
    simp only [toInt32_toUInt32 val h0 h1]
  · intro h0 h1
    refine ⟨List.take_left _ _, by simp [encodeToVectorInt64, storeU64, storeU32],
      List.drop_left _ _, ?_⟩
    unfold readDataInt64 encodeToVectorInt64
    rw [loadU64_storeU64 vec rest _ (toUInt64_lt val)]
    simp only [toInt64_toUInt64 val h0 h1]

/-- The value -2 appended to the vector `[7]` as an `int32_t` and as an `int64_t`, and read
back. -/
theorem readData_encodeToVector_witness :
    encodeToVectorInt32 [7] (-2) = [7, 254, 255, 255, 255]
      ∧ readDataInt32 (encodeToVectorInt32 [7] (-2) ++ [9]) 1 = some (-2, 1 + 4)
      ∧ readDataInt64 (encodeToVectorInt64 [7] (-2) ++ [9]) 1 = some (-2, 1 + 8) :=
  ⟨by decide,
   ((readData_encodeToVector [7] [9] (-2)).1 (by decide) (by decide)).2.2.2,
   ((readData_encodeToVector [7] [9] (-2)).2 (by decide) (by decide)).2.2.2⟩

/-! ## Canonical and over-long variable-size immediates -/

theorem decode_storeU32 (pre rest : List Byte) (n : Nat) (h : n ≤ 2147483647) :
    decodeVariableSizeImm (pre ++ storeU32 (2 * n + 1) ++ rest) pre.length
      = some ((n : Int), pre.length + 4) := by
  have e0 : (pre ++ storeU32 (2 * n + 1) ++ rest)[pre.length]?
      = some (Fin.ofNat ((2 * n + 1) % 256)) := by
    have h0 := getElem?_append_offset pre (storeU32 (2 * n + 1) ++ rest) 0
    simpa [storeU32] using h0
  have hv : ((Fin.ofNat ((2 * n + 1) % 256) : Byte).val) % 2 = 1 := by
    simp only [Fin.ofNat]
    omega
  unfold decodeVariableSizeImm
  rw [e0]
  simp only [land_one_eq_mod, hv, loadU32_storeU32 pre rest (2 * n + 1) (by omega),
    shiftRight_one_eq_div]
  have hd : (2 * n + 1) / 2 = n := by omega
  simp [hd, toInt32_of_lt n (by omega)]

theorem loadU32_eq_some (buf : List Byte) (p w : Nat) (h : loadU32 buf p = some w) :
    ∃ b0 b1 b2 b3 : Byte, buf[p]? = some b0 ∧ buf[p + 1]? = some b1 ∧ buf[p + 2]? = some b2
      ∧ buf[p + 3]? = some b3
      ∧ w = b0.val + 256 * b1.val + 65536 * b2.val + 16777216 * b3.val := by
  unfold loadU32 at h
  split at h
  · rename_i b0 b1 b2 b3 h0 h1 h2 h3
    exact ⟨b0, b1, b2, b3, h0, h1, h2, h3, (Option.some.inj h).symm⟩
  · cases h

theorem storeU32_bytes (b0 b1 b2 b3 : Byte) :
    storeU32 (b0.val + 256 * b1.val + 65536 * b2.val + 16777216 * b3.val)
      = [b0, b1, b2, b3] := by
  have l0 : b0.val < 256 := b0.isLt
  have l1 : b1.val < 256 := b1.isLt
  have l2 : b2.val < 256 := b2.isLt
  have l3 : b3.val < 256 := b3.isLt
  unfold storeU32
  have e0 : (Fin.ofNat ((b0.val + 256 * b1.val + 65536 * b2.val + 16777216 * b3.val) % 256)
      : Byte) = b0 := by
    apply Fin.ext
    simp only [Fin.ofNat]
    omega
  have e1 : (Fin.ofNat ((b0.val + 256 * b1.val + 65536 * b2.val + 16777216 * b3.val) / 256
      % 256) : Byte) = b1 := by
    apply Fin.ext
    simp only [Fin.ofNat]
    omega
  have e2 : (Fin.ofNat ((b0.val + 256 * b1.val + 65536 * b2.val + 16777216 * b3.val) / 65536
      % 256) : Byte) = b2 := by
    apply Fin.ext
    simp only [Fin.ofNat]
    omega
  have e3 : (Fin.ofNat ((b0.val + 256 * b1.val + 65536 * b2.val + 16777216 * b3.val)
      / 16777216 % 256) : Byte) = b3 := by
    apply Fin.ext
    simp only [Fin.ofNat]
    omega
  rw [e0, e1, e2, e3]

theorem take_drop_one (buf : List Byte) (p : Nat) (b : Byte) (h : buf[p]? = some b) :
    (buf.drop p).take 1 = [b] := by
  obtain ⟨hlt, hb⟩ := List.getElem?_eq_some_iff.mp h
  rw [List.drop_eq_getElem_cons hlt, hb]
  rfl

theorem take_drop_four (buf : List Byte) (p : Nat) (b0 b1 b2 b3 : Byte)
    (h0 : buf[p]? = some b0) (h1 : buf[p + 1]? = some b1) (h2 : buf[p + 2]? = some b2)
    (h3 : buf[p + 3]? = some b3) :
    (buf.drop p).take 4 = [b0, b1, b2, b3] := by
  obtain ⟨l0, e0⟩ := List.getElem?_eq_some_iff.mp h0
  obtain ⟨l1, e1⟩ := List.getElem?_eq_some_iff.mp h1
  obtain ⟨l2, e2⟩ := List.getElem?_eq_some_iff.mp h2
  obtain ⟨l3, e3⟩ := List.getElem?_eq_some_iff.mp h3
  rw [List.drop_eq_getElem_cons l0, List.drop_eq_getElem_cons l1,
    List.drop_eq_getElem_cons l2, List.drop_eq_getElem_cons l3, e0, e1, e2, e3]
  rfl

theorem reencode_one_byte (buf : List Byte) (p : Nat) (b : Byte) (hb : buf[p]? = some b)
    (hlow : b.val &&& 1 = 0) :
    decodeVariableSizeImm buf p = some (((b.val / 2 : Nat) : Int), p + 1)
      ∧ b.val / 2 ≤ 127
      ∧ (buf.drop p).take 1 = [Fin.ofNat (2 * (b.val / 2))]
      ∧ encodeVariableSizeImm ((b.val / 2 : Nat) : Int) = (buf.drop p).take 1 := by
  have hlt : b.val < 256 := b.isLt
  have hmod : b.val % 2 = 0 := by rw [← land_one_eq_mod]; exact hlow
  have hbyte : (Fin.ofNat (2 * (b.val / 2)) : Byte) = b := by
    apply Fin.ext
    simp only [Fin.ofNat]
    omega
  have hdec : decodeVariableSizeImm buf p = some (((b.val / 2 : Nat) : Int), p + 1) := by
    unfold decodeVariableSizeImm
    rw [hb]
    simp [hlow, shiftRight_one_eq_div, toInt32_of_lt (b.val / 2) (by omega)]
  refine ⟨hdec, by omega, ?_, ?_⟩
  · rw [hbyte]
    exact take_drop_one buf p b hb
  · rw [encodeVariableSizeImm_small (b.val / 2) (by omega), hbyte]
    exact (take_drop_one buf p b hb).symm

theorem reencode_four_bytes (buf : List Byte) (p : Nat) (b : Byte) (w : Nat)
    (hb : buf[p]? = some b) (hlow : b.val &&& 1 ≠ 0) (hw : loadU32 buf p = some w) :
    decodeVariableSizeImm buf p = some (((w / 2 : Nat) : Int), p + 4)
      ∧ w / 2 ≤ 2147483647
      ∧ (buf.drop p).take 4 = storeU32 (2 * (w / 2) + 1)
      ∧ (encodeVariableSizeImm ((w / 2 : Nat) : Int) = (buf.drop p).take 4 ↔ 128 ≤ w / 2) := by
  obtain ⟨b0, b1, b2, b3, h0, h1, h2, h3, hwe⟩ := loadU32_eq_some buf p w hw
  have hb0 : b0 = b := by
    rw [hb] at h0
    exact (Option.some.inj h0).symm
  have l0 : b0.val < 256 := b0.isLt
  have l1 : b1.val < 256 := b1.isLt
  have l2 : b2.val < 256 := b2.isLt
  have l3 : b3.val < 256 := b3.isLt
  have hbm : b.val % 2 ≠ 0 := by
    rw [← land_one_eq_mod]
    exact hlow
  have hodd : b0.val % 2 = 1 := by
    rw [hb0]
    omega
  have hwodd : 2 * (w / 2) + 1 = w := by omega
  have hbound : w / 2 ≤ 2147483647 := by omega
  have htake : (buf.drop p).take 4 = storeU32 (2 * (w / 2) + 1) := by
    rw [hwodd, hwe, storeU32_bytes]
    exact take_drop_four buf p b0 b1 b2 b3 h0 h1 h2 h3
  have hdec : decodeVariableSizeImm buf p = some (((w / 2 : Nat) : Int), p + 4) := by
    have hbodd : b.val % 2 = 1 := by omega
    unfold decodeVariableSizeImm
    rw [hb, hw]
    simp [hbodd, shiftRight_one_eq_div, toInt32_of_lt (w / 2) (by omega)]
  refine ⟨hdec, hbound, htake, ?_⟩
  rw [htake]
  constructor
  · intro henc
    by_contra hsmall
    rw [encodeVariableSizeImm_small (w / 2) (by omega)] at henc
    have hl := congrArg List.length henc
    simp [storeU32] at hl
  · intro hbig
    exact encodeVariableSizeImm_large (w / 2) (by omega) hbound

/-- C27: whenever `decodeVariableSizeImm` accepts a stream at cursor `p`, returning `v` and the
cursor `q`, it has consumed 1 or 4 bytes and `0 ≤ v ≤ 2^31 - 1`; re-encoding `v` with the encode
rule reproduces exactly the consumed bytes iff the 1-byte form was read or `v ≥ 128`.  A 1-byte
form always holds a value in `0..127` and is the byte `2 v`; a 4-byte form is always the word
`2 v + 1`.  Hence each value in `0..127` has two distinct accepted encodings, the byte and the
over-long word, and each value in `128..2^31 - 1` exactly one, the word. -/
theorem decodeVariableSizeImm_reencode (buf : List Byte) (p : Nat) (v : Int) (q : Nat)
    (h : decodeVariableSizeImm buf p = some (v, q)) :
    (q = p + 1 ∨ q = p + 4) ∧ 0 ≤ v ∧ v ≤ 2147483647
      ∧ (q = p + 1 → v ≤ 127 ∧ (buf.drop p).take (q - p) = [Fin.ofNat (2 * v.toNat)])
      ∧ (q = p + 4 → (buf.drop p).take (q - p) = storeU32 (2 * v.toNat + 1))
      ∧ (encodeVariableSizeImm v = (buf.drop p).take (q - p) ↔ (q = p + 1 ∨ 128 ≤ v))
      ∧ (128 ≤ v → q = p + 4)
      ∧ (∀ u : Nat, u ≤ 127 →
          decodeVariableSizeImm [Fin.ofNat (2 * u)] 0 = some ((u : Int), 1)
            ∧ decodeVariableSizeImm (storeU32 (2 * u + 1)) 0 = some ((u : Int), 4)
            ∧ [(Fin.ofNat (2 * u) : Byte)] ≠ storeU32 (2 * u + 1))
      ∧ (∀ u : Nat, 128 ≤ u → u ≤ 2147483647 →
          decodeVariableSizeImm (storeU32 (2 * u + 1)) 0 = some ((u : Int), 4)) := by
  have hover : ∀ u : Nat, u ≤ 2147483647 →
      decodeVariableSizeImm (storeU32 (2 * u + 1)) 0 = some ((u : Int), 4) := by
    intro u hu
    have hd := decode_storeU32 [] [] u hu
    simpa using hd
  have hshort : ∀ u : Nat, u ≤ 127 →
      decodeVariableSizeImm [Fin.ofNat (2 * u)] 0 = some ((u : Int), 1) := by
    intro u hu
    have hd := decode_encode_at [] [] u (by omega)
    rw [encodeVariableSizeImm_small u hu] at hd
    simpa using hd
  have hexist : (∀ u : Nat, u ≤ 127 →
          decodeVariableSizeImm [Fin.ofNat (2 * u)] 0 = some ((u : Int), 1)
            ∧ decodeVariableSizeImm (storeU32 (2 * u + 1)) 0 = some ((u : Int), 4)
            ∧ [(Fin.ofNat (2 * u) : Byte)] ≠ storeU32 (2 * u + 1))
      ∧ (∀ u : Nat, 128 ≤ u → u ≤ 2147483647 →
          decodeVariableSizeImm (storeU32 (2 * u + 1)) 0 = some ((u : Int), 4)) := by
    refine ⟨fun u hu => ⟨hshort u hu, hover u (by omega), ?_⟩, fun u _ hu => hover u hu⟩
    intro heq
    have hl := congrArg List.length heq
    simp [storeU32] at hl
  cases hb : buf[p]? with
  | none =>
      unfold decodeVariableSizeImm at h
      rw [hb] at h
      cases h
  | some b =>
      by_cases hlow : b.val &&& 1 = 0
      · obtain ⟨hdec, hle, htake, henc⟩ := reencode_one_byte buf p b hb hlow
        rw [hdec] at h
        obtain ⟨hv, hq⟩ := Prod.mk.inj (Option.some.inj h)
        subst hv hq
        have hsub : p + 1 - p = 1 := by omega
        rw [hsub]
        refine ⟨Or.inl rfl, by omega, by omega, ?_, ?_, ?_, ?_, hexist⟩
        · intro _
          refine ⟨by omega, ?_⟩
          rw [Int.toNat_ofNat]
          exact htake
        · intro h4
          omega
        · exact ⟨fun _ => Or.inl rfl, fun _ => henc⟩
        · intro hbig
          omega
      · cases hw : loadU32 buf p with
        | none =>
            unfold decodeVariableSizeImm at h
            rw [hb] at h
            simp [hlow, hw] at h
            rw [land_one_eq_mod] at hlow
            exact absurd h.1 hlow
        | some w =>
            obtain ⟨hdec, hle, htake, henc⟩ := reencode_four_bytes buf p b w hb hlow hw
            rw [hdec] at h
            obtain ⟨hv, hq⟩ := Prod.mk.inj (Option.some.inj h)
            subst hv hq
            have hsub : p + 4 - p = 4 := by omega
            rw [hsub]
            refine ⟨Or.inr rfl, by omega, by omega, ?_, ?_, ?_, ?_, hexist⟩
            · intro h1
              omega
            · intro _
              rw [Int.toNat_ofNat]
              exact htake
            · rw [henc]
              constructor
              · intro hbig
                exact Or.inr (by omega)
              · intro hor
                rcases hor with h1 | hbig
                · omega
                · omega
            · intro _
              rfl

/-- The value 5 is accepted as the byte `0a` and as the over-long word `0b 00 00 00`; only the
first is reproduced by re-encoding. -/
theorem decodeVariableSizeImm_reencode_witness :
    decodeVariableSizeImm [11, 0, 0, 0] 0 = some (5, 4)
      ∧ encodeVariableSizeImm 5 = [10]
      ∧ ¬ (encodeVariableSizeImm 5 = (([11, 0, 0, 0] : List Byte).drop 0).take (4 - 0))
      ∧ decodeVariableSizeImm [10] 0 = some (5, 1) :=
  ⟨by decide, by decide,
   fun henc => absurd
     (((decodeVariableSizeImm_reencode [11, 0, 0, 0] 0 5 4 (by decide)).2.2.2.2.2.1).mp henc)
     (by decide),
   by decide⟩

/-! ## Vector immediates and call-sequence opcodes -/

/-- C31: every row of `OPCODES` contains at most one vector-kind immediate (`MA`, `BLA`, `SLA`,
`ILA` or `VSA`); the vector of `Switch` (`BLA`) and that of `SSwitch` (`SLA`) is the first
immediate, so it starts directly after the opcode byte, and that is where
`foreachSwitchTarget` reads the element count. -/
theorem vector_imm_at_most_one (row : OpcodeRow) (h : row ∈ OPCODES) :
    (row.imm.toList.filter ArgType.isVec).length ≤ 1
      ∧ (row.name = OpName.Switch → row.imm.toList.head? = some ArgType.BLA)
      ∧ (row.name = OpName.SSwitch → row.imm.toList.head? = some ArgType.SLA)
      ∧ (∀ (buf : List Byte) (op : Nat) (opcode : Op) (w : Nat),
          buf[op]? = some opcode → isSwitch opcode = true → loadU32 buf (op + 1) = some w →
          foreachSwitchTarget buf op
            = foreachSwitchTargetLoop buf (opcode == OpSSwitch) (toInt32 w).toNat
                (op + 1 + 4)) := by
  have key : ∀ r ∈ OPCODES,
      (r.imm.toList.filter ArgType.isVec).length ≤ 1
        ∧ (r.name = OpName.Switch → r.imm.toList.head? = some ArgType.BLA)
        ∧ (r.name = OpName.SSwitch → r.imm.toList.head? = some ArgType.SLA) := by
    decide
  obtain ⟨h1, h2, h3⟩ := key row h
  refine ⟨h1, h2, h3, ?_⟩
  intro buf op opcode w hop hsw hw
  simp [foreachSwitchTarget, readDataOp, readDataInt32, hop, hsw, hw]

/-- The row of `Switch`: its one vector immediate, `BLA`, comes first. -/
theorem vector_imm_at_most_one_witness :
    O .Switch (.THREE .BLA .I64A .OA) (.ONE .CV) .NOV CF_TF ∈ OPCODES
      ∧ (Imms.THREE ArgType.BLA ArgType.I64A ArgType.OA).toList.head? = some ArgType.BLA :=
  ⟨by decide,
   (vector_imm_at_most_one (O .Switch (.THREE .BLA .I64A .OA) (.ONE .CV) .NOV CF_TF)
      (by decide)).2.1 rfl⟩

theorem fpush_fpass_rows (op : Op) :
    (isFPush op = true ∨ (OpFPassC.val ≤ op.val ∧ op.val ≤ OpFPassM.val)) →
      (opcodeRow op).map (fun row => row.imm.toList.head?) = some (some ArgType.IVA) := by
  revert op
  decide

/-- C32: every opcode in the `isFPush` range and every opcode in the range `FPassC..FPassM`,
`FPassVNop` included, has a variable-width integer (`IVA`) as its first immediate. -/
theorem fpush_fpass_first_iva (op : Op)
    (h : isFPush op = true ∨ (OpFPassC.val ≤ op.val ∧ op.val ≤ OpFPassM.val)) :
    ∃ row, opcodeRow op = some row ∧ row.imm.toList.head? = some ArgType.IVA := by
  have hk := fpush_fpass_rows op h
  cases hrow : opcodeRow op with
  | none => rw [hrow] at hk; cases hk
  | some row =>
      rw [hrow] at hk
      simp only [Option.map_some', Option.some.injEq] at hk
      exact ⟨row, rfl, hk⟩

/-- The opcode `FPassVNop` lies in the range `FPassC..FPassM` and starts with an `IVA`. -/
theorem fpush_fpass_first_iva_witness :
    OpFPassC.val ≤ OpFPassVNop.val ∧ OpFPassVNop.val ≤ OpFPassM.val
      ∧ ∃ row, opcodeRow OpFPassVNop = some row ∧ row.imm.toList.head? = some ArgType.IVA :=
  ⟨by decide, by decide, fpush_fpass_first_iva OpFPassVNop (Or.inr ⟨by decide, by decide⟩)⟩

/-- C33: the range predicates `isFPushFunc`, `isFPushClsMethod` and `isFPushCuf` hold exactly for
`FPushFunc`, `FPushFuncD`, `FPushFuncU`, for `FPushClsMethod`, `FPushClsMethodF`,
`FPushClsMethodD` and for `FPushCufIter`, `FPushCuf`, `FPushCufF`, `FPushCufSafe`; together with
`isFPushCtor` (`FPushCtor`, `FPushCtorD`) the four are pairwise disjoint, and each implies
`isFPush`. -/
theorem isFPush_subranges (op : Op) :
    (isFPushFunc op = true ↔ op ∈ [OpFPushFunc, OpFPushFuncD, OpFPushFuncU])
      ∧ (isFPushClsMethod op = true ↔
          op ∈ [OpFPushClsMethod, OpFPushClsMethodF, OpFPushClsMethodD])
      ∧ (isFPushCuf op = true ↔ op ∈ [OpFPushCufIter, OpFPushCuf, OpFPushCufF, OpFPushCufSafe])
      ∧ (isFPushCtor op = true ↔ op ∈ [OpFPushCtor, OpFPushCtorD])
      ∧ ¬ (isFPushFunc op = true ∧ isFPushClsMethod op = true)
      ∧ ¬ (isFPushFunc op = true ∧ isFPushCuf op = true)
      ∧ ¬ (isFPushFunc op = true ∧ isFPushCtor op = true)
      ∧ ¬ (isFPushClsMethod op = true ∧ isFPushCuf op = true)
      ∧ ¬ (isFPushClsMethod op = true ∧ isFPushCtor op = true)
      ∧ ¬ (isFPushCuf op = true ∧ isFPushCtor op = true)
      ∧ (isFPushFunc op = true → isFPush op = true)
      ∧ (isFPushClsMethod op = true → isFPush op = true)
      ∧ (isFPushCuf op = true → isFPush op = true)
      ∧ (isFPushCtor op = true → isFPush op = true) := by
  revert op
  decide

/-- The opcode `FPushCufIter` opens the `isFPushCuf` range and is an `isFPush` opcode. -/
theorem isFPush_subranges_witness :
    isFPushCuf OpFPushCufIter = true ∧ isFPush OpFPushCufIter = true :=
  ⟨by decide, (isFPush_subranges OpFPushCufIter).2.2.2.2.2.2.2.2.2.2.2.2.1 (by decide)⟩

/-! ## Properties of the sub-operator predicates -/

/-- C34: the three predicates `isPre`, `isInc` and `isIncDecO` jointly identify an `IncDecOp`:
the map sending an operator to the triple of their values is a bijection from the eight
operators onto the eight Boolean triples; and `isIncDecO` holds of an operator iff its ordinal is
at least 4, iff it is the overflow-checking variant of a plain operator, one with the same
`isPre` and `isInc` whose ordinal is 4 less. -/
theorem incDecOp_triple_bijective (op : IncDecOp) :
    Function.Bijective (fun o : IncDecOp => (isPre o, isInc o, isIncDecO o))
      ∧ (isIncDecO op = true ↔ 4 ≤ op.toCtorIdx)
      ∧ (isIncDecO op = true ↔
          ∃ plain : IncDecOp, isIncDecO plain = false ∧ op.toCtorIdx = plain.toCtorIdx + 4
            ∧ isPre op = isPre plain ∧ isInc op = isInc plain)
      ∧ [IncDecOp.PreInc, IncDecOp.PostInc, IncDecOp.PreDec, IncDecOp.PostDec,
          IncDecOp.PreIncO, IncDecOp.PostIncO, IncDecOp.PreDecO, IncDecOp.PostDecO].map
            IncDecOp.toCtorIdx = [0, 1, 2, 3, 4, 5, 6, 7] := by
  refine ⟨⟨?_, ?_⟩, ?_, ?_, rfl⟩
  · intro a b hab
    cases a <;> cases b <;> first
      | rfl
      | exact absurd hab (by decide)
  · intro t
    obtain ⟨x, y, z⟩ := t
    cases x <;> cases y <;> cases z
    · exact ⟨IncDecOp.PostDec, rfl⟩
    · exact ⟨IncDecOp.PostDecO, rfl⟩
    · exact ⟨IncDecOp.PostInc, rfl⟩
    · exact ⟨IncDecOp.PostIncO, rfl⟩
    · exact ⟨IncDecOp.PreDec, rfl⟩
    · exact ⟨IncDecOp.PreDecO, rfl⟩
    · exact ⟨IncDecOp.PreInc, rfl⟩
    · exact ⟨IncDecOp.PreIncO, rfl⟩
  · cases op <;> decide
  · constructor
    · intro h
      cases op
      · exact absurd h (by decide)
      · exact absurd h (by decide)
      · exact absurd h (by decide)
      · exact absurd h (by decide)
      · exact ⟨IncDecOp.PreInc, rfl, rfl, rfl, rfl⟩
      · exact ⟨IncDecOp.PostInc, rfl, rfl, rfl, rfl⟩
      · exact ⟨IncDecOp.PreDec, rfl, rfl, rfl, rfl⟩
      · exact ⟨IncDecOp.PostDec, rfl, rfl, rfl, rfl⟩
    · intro h
      obtain ⟨plain, _, hord, _, _⟩ := h
      have h4 : 4 ≤ op.toCtorIdx := by omega
      revert h4
      cases op <;> decide

/-- C35: for every valid `MemberCode` exactly one of `mcodeIsProp`, `mcodeIsElem` and being `MW`
holds: property codes and element codes are disjoint, and `MW` is the only valid code that is
neither. -/
theorem mcode_prop_elem_new (mc : MemberCode) (h : mc ≠ MemberCode.InvalidMemberCode) :
    ((mcodeIsProp mc = true ∧ mcodeIsElem mc = false ∧ mc ≠ MemberCode.MW)
        ∨ (mcodeIsProp mc = false ∧ mcodeIsElem mc = true ∧ mc ≠ MemberCode.MW)
        ∨ (mcodeIsProp mc = false ∧ mcodeIsElem mc = false ∧ mc = MemberCode.MW))
      ∧ ¬ (mcodeIsProp mc = true ∧ mcodeIsElem mc = true)
      ∧ (mcodeIsProp mc = false ∧ mcodeIsElem mc = false ↔ mc = MemberCode.MW) := by
  cases mc <;> first
    | exact absurd rfl h
    | decide

/-- The code `MQT` is a property code and no element code; `MW` is neither. -/
theorem mcode_prop_elem_new_witness :
    mcodeIsProp MemberCode.MW = false ∧ mcodeIsElem MemberCode.MW = false
      ∧ ¬ (mcodeIsProp MemberCode.MQT = true ∧ mcodeIsElem MemberCode.MQT = true) :=
  ⟨((mcode_prop_elem_new MemberCode.MW (by decide)).2.2.mpr rfl).1,
   ((mcode_prop_elem_new MemberCode.MW (by decide)).2.2.mpr rfl).2,
   (mcode_prop_elem_new MemberCode.MQT (by decide)).2.1⟩

/-- C36: for all `MOpFlags` `a` and `b`, `operator&(a, b)` is true iff the bitwise AND of their
byte values is not zero; so `Reffy & Define`, `WarnDefine & Warn` and `WarnDefine & Define` are
true, `None & x` is false for every `x`, and `Warn & Define` and `Unset & Reffy` are false.  The
byte values are those of the `M_OP_FLAGS` list. -/
theorem MOpFlags_and_iff (a b : MOpFlags) :
    (MOpFlags.and a b = true ↔ a.toUInt8 &&& b.toUInt8 ≠ 0)
      ∧ MOpFlags.and MOpFlags.Reffy MOpFlags.Define = true
      ∧ MOpFlags.and MOpFlags.WarnDefine MOpFlags.Warn = true
      ∧ MOpFlags.and MOpFlags.WarnDefine MOpFlags.Define = true
      ∧ MOpFlags.and MOpFlags.None b = false
      ∧ MOpFlags.and MOpFlags.Warn MOpFlags.Define = false
      ∧ MOpFlags.and MOpFlags.Unset MOpFlags.Reffy = false
      ∧ [MOpFlags.None, MOpFlags.Warn, MOpFlags.Define, MOpFlags.Unset, MOpFlags.Reffy,
          MOpFlags.WarnDefine].map MOpFlags.toUInt8 = M_OP_FLAGS.map Prod.snd
      ∧ M_OP_FLAGS.map Prod.snd = [0, 1, 2, 4, 10, 3] := by
  refine ⟨?_, by decide, by decide, by decide, ?_, by decide, by decide, by decide, by decide⟩
  · cases a <;> cases b <;> decide
  · cases b <;> decide

end HPHP
